import Mathlib

/-!
Verification of the guitar-diagnostics core against its specification.

The development shallowly embeds the C++ sources:
* `Util/LockFreeRingBuffer.h` — the SPSC sample ring (`LockFreeRingBuffer`);
* `Analysis/Fretbuzz/FretBuzzDetector.*` — the fret-buzz analyzer;
* `Analysis/Intonation/IntonationAnalyzer.*` — the intonation analyzer and
  its calibration state machine;
* `Analysis/StringHealth/StringHealthAnalyzer.*` — the string-health analyzer.

Machine floats are modelled as exact real (or rational) numbers; machine
`size_t` values are modelled as `Nat` (all index arithmetic in the sources
stays far below 2^64 because every index is reduced modulo the ring
capacity immediately).  The external DSP primitives (`GuitarDSP`'s spectrum
object and pitch detector) are not part of this repository; where an
analyzer consumes their outputs the embedding takes those outputs as
explicit arguments, and the few helper functions of the spectrum object
that the analyzers call are modelled from their specified contracts.
-/

namespace GuitarDiagnostics

namespace Util

/-- State of `LockFreeRingBuffer<T>` (LockFreeRingBuffer.h, lines 76-79):
a fixed `capacity` (the constructor stores the user capacity plus one),
the backing `buffer`, and the two indices. -/
structure LockFreeRingBuffer (α : Type) where
  capacity : Nat
  buffer : List α
  writeIndex : Nat
  readIndex : Nat
  deriving Repr, DecidableEq

/-- Constructor (LockFreeRingBuffer.h, lines 82-86): stores `capacity + 1`,
allocates `capacity + 1` value-initialised slots, zeroes both indices. -/
def mkLockFreeRingBuffer (α : Type) [Inhabited α] (capacity : Nat) :
    LockFreeRingBuffer α :=
  { capacity := capacity + 1
    buffer := List.replicate (capacity + 1) default
    writeIndex := 0
    readIndex := 0 }

namespace LockFreeRingBuffer

variable {α : Type}

/-- GetAvailableReadInternal (lines 144-152). -/
def GetAvailableReadInternal (r : LockFreeRingBuffer α) (readIdx writeIdx : Nat) : Nat :=
  if writeIdx ≥ readIdx then writeIdx - readIdx
  else r.capacity - readIdx + writeIdx

/-- GetAvailableWriteInternal (lines 154-158). -/
def GetAvailableWriteInternal (r : LockFreeRingBuffer α) (writeIdx readIdx : Nat) : Nat :=
  r.capacity - 1 - r.GetAvailableReadInternal readIdx writeIdx

/-- The copy loop of `Write` (lines 104-107): `buffer[(writeIdx + i) % capacity] = data[i]`;
the absolute position `pos` plays the role of `writeIdx + i`. -/
def copyLoop (cap : Nat) : List α → Nat → List α → List α
  | buf, _, [] => buf
  | buf, pos, d :: ds => copyLoop cap (buf.set (pos % cap) d) (pos + 1) ds

/-- The copy loop of `Read` (lines 127-130): `output[i] = buffer[(readIdx + i) % capacity]`;
the absolute position `pos` plays the role of `readIdx + i`. -/
def readLoop [Inhabited α] (buf : List α) (cap : Nat) : Nat → Nat → List α
  | _, 0 => []
  | pos, n + 1 => buf.getD (pos % cap) default :: readLoop buf cap (pos + 1) n

/-- Write (lines 88-112).  Returns the successor state and the `bool` result. -/
def Write [Inhabited α] (r : LockFreeRingBuffer α) (data : List α) :
    LockFreeRingBuffer α × Bool :=
  if data.isEmpty then (r, true)
  else
    let writeIdx := r.writeIndex
    let readIdx := r.readIndex
    let available := r.GetAvailableWriteInternal writeIdx readIdx
    if available < data.length then (r, false)
    else
      ({ r with
          buffer := copyLoop r.capacity r.buffer writeIdx data
          writeIndex := (writeIdx + data.length) % r.capacity }, true)

/-- Read (lines 114-135).  The C++ function fills a caller-supplied span of
length `outLen` and returns the count read; the embedding returns the
successor state together with the list of samples read (whose length is the
returned count). -/
def Read [Inhabited α] (r : LockFreeRingBuffer α) (outLen : Nat) :
    LockFreeRingBuffer α × List α :=
  if outLen = 0 then (r, [])
  else
    let readIdx := r.readIndex
    let writeIdx := r.writeIndex
    let available := r.GetAvailableReadInternal readIdx writeIdx
    let toRead := min available outLen
    ({ r with readIndex := (readIdx + toRead) % r.capacity },
     readLoop r.buffer r.capacity readIdx toRead)

/-- GetAvailableRead (lines 137-142). -/
def GetAvailableRead (r : LockFreeRingBuffer α) : Nat :=
  r.GetAvailableReadInternal r.readIndex r.writeIndex

/-- Sequential writes: thread the state through a list of blocks and conjoin
the returned flags. -/
def WriteAll [Inhabited α] (r : LockFreeRingBuffer α) :
    List (List α) → LockFreeRingBuffer α × Bool
  | [] => (r, true)
  | d :: ds =>
      let step := r.Write d
      let rest := WriteAll step.1 ds
      (rest.1, step.2 && rest.2)

/-- Abstraction invariant: the ring state `r` is well formed and currently
holds exactly the FIFO queue `q`. -/
abbrev Inv [Inhabited α] (r : LockFreeRingBuffer α) (q : List α) : Prop :=
  r.buffer.length = r.capacity ∧
  r.readIndex < r.capacity ∧
  r.writeIndex < r.capacity ∧
  q.length ≤ r.capacity - 1 ∧
  r.writeIndex = (r.readIndex + q.length) % r.capacity ∧
  readLoop r.buffer r.capacity r.readIndex q.length = q

/-- States reachable from construction with user capacity `C` by any
interleaving of `Write` and `Read` calls. -/
inductive Reachable [Inhabited α] (C : Nat) : LockFreeRingBuffer α → Prop
  | init : Reachable C (mkLockFreeRingBuffer α C)
  | step_write (r : LockFreeRingBuffer α) (data : List α) :
      Reachable C r → Reachable C (r.Write data).1
  | step_read (r : LockFreeRingBuffer α) (n : Nat) :
      Reachable C r → Reachable C (r.Read n).1

theorem length_copyLoop (cap : Nat) (buf : List α) (pos : Nat) (data : List α) :
    (copyLoop cap buf pos data).length = buf.length := by
  induction data generalizing buf pos with
  | nil => rfl
  | cons d ds ih => simp [copyLoop, ih, List.length_set]

theorem Write_fields [Inhabited α] (r : LockFreeRingBuffer α) (data : List α) :
    (r.Write data).1.capacity = r.capacity ∧
    (r.Write data).1.readIndex = r.readIndex ∧
    ((r.Write data).1.writeIndex = r.writeIndex ∨
      (r.Write data).1.writeIndex = (r.writeIndex + data.length) % r.capacity) := by
  unfold Write
  split
  · exact ⟨rfl, rfl, Or.inl rfl⟩
  · dsimp only
    split
    · exact ⟨rfl, rfl, Or.inl rfl⟩
    · exact ⟨rfl, rfl, Or.inr rfl⟩

theorem capacity_Write [Inhabited α] (r : LockFreeRingBuffer α) (data : List α) :
    (r.Write data).1.capacity = r.capacity :=
  (Write_fields r data).1

theorem Read_fields [Inhabited α] (r : LockFreeRingBuffer α) (n : Nat) :
    (r.Read n).1.capacity = r.capacity ∧
    (r.Read n).1.writeIndex = r.writeIndex ∧
    ((r.Read n).1.readIndex = r.readIndex ∨
      ∃ k, (r.Read n).1.readIndex = (r.readIndex + k) % r.capacity) := by
  unfold Read
  split
  · exact ⟨rfl, rfl, Or.inl rfl⟩
  · dsimp only
    exact ⟨rfl, rfl, Or.inr ⟨_, rfl⟩⟩

theorem readLoop_congr [Inhabited α] (buf : List α) (cap p p' n : Nat)
    (h : p % cap = p' % cap) :
    readLoop buf cap p n = readLoop buf cap p' n := by
  induction n generalizing p p' with
  | zero => rfl
  | succ n ih =>
      have h1 : (p + 1) % cap = (p' + 1) % cap := by
        rw [← Nat.mod_add_mod, h, Nat.mod_add_mod]
      rw [readLoop, readLoop, h, ih (p + 1) (p' + 1) h1]

theorem readLoop_append [Inhabited α] (buf : List α) (cap pos m n : Nat) :
    readLoop buf cap pos (m + n) =
      readLoop buf cap pos m ++ readLoop buf cap (pos + m) n := by
  induction m generalizing pos with
  | zero => simp [readLoop]
  | succ m ih =>
      have hsucc : m + 1 + n = (m + n) + 1 := by omega
      have hpos : pos + 1 + m = pos + (m + 1) := by omega
      rw [hsucc, readLoop, readLoop, ih (pos + 1), hpos, List.cons_append]

theorem getD_copyLoop_of_notin (cap : Nat) (buf : List α) (pos : Nat) (data : List α)
    (p : Nat) (hp : ∀ j < data.length, (pos + j) % cap ≠ p) (d : α) :
    (copyLoop cap buf pos data).getD p d = buf.getD p d := by
  induction data generalizing buf pos with
  | nil => rfl
  | cons x xs ih =>
      rw [copyLoop, ih _ (pos + 1) ?_]
      · have hne : pos % cap ≠ p := by
          have h0 := hp 0 (by simp)
          simpa using h0
        simp [List.getD_eq_getElem?_getD, List.getElem?_set_ne hne]
      · intro j hj
        have h1 := hp (j + 1) (by simp; omega)
        have h2 : pos + (j + 1) = pos + 1 + j := by omega
        rwa [h2] at h1

theorem readLoop_copyLoop [Inhabited α] (cap : Nat) (buf : List α) (pos : Nat)
    (data : List α) (hbuf : buf.length = cap) (hlen : data.length ≤ cap) :
    readLoop (copyLoop cap buf pos data) cap pos data.length = data := by
  induction data generalizing buf pos with
  | nil => rfl
  | cons x xs ih =>
      have hlen' : xs.length + 1 ≤ cap := by simpa using hlen
      have hcap : 0 < cap := by omega
      rw [copyLoop, List.length_cons, readLoop]
      have hnotin : ∀ j < xs.length, (pos + 1 + j) % cap ≠ pos % cap := by
        intro j hj hcontra
        have hmod : pos + (1 + j) ≡ pos + 0 [MOD cap] := by
          unfold Nat.ModEq
          have h2 : pos + 1 + j = pos + (1 + j) := by omega
          rw [← h2, hcontra]; simp
        have hz : (1 + j) ≡ 0 [MOD cap] :=
          Nat.ModEq.add_left_cancel (Nat.ModEq.refl pos) hmod
        have hlt2 : 1 + j < cap := by omega
        unfold Nat.ModEq at hz
        rw [Nat.mod_eq_of_lt hlt2, Nat.zero_mod] at hz
        omega
      have hhead :
          (copyLoop cap (buf.set (pos % cap) x) (pos + 1) xs).getD (pos % cap) default
            = x := by
        rw [getD_copyLoop_of_notin cap _ (pos + 1) xs (pos % cap) hnotin default]
        have hlt : pos % cap < buf.length := by
          rw [hbuf]; exact Nat.mod_lt pos hcap
        simp [List.getD_eq_getElem?_getD, List.getElem?_set_self hlt]
      rw [hhead, ih (buf.set (pos % cap) x) (pos + 1) (by simp [hbuf]) (by omega)]

theorem readLoop_copyLoop_disjoint [Inhabited α] (cap : Nat) (buf : List α)
    (wpos : Nat) (data : List α) (rpos n : Nat)
    (hdisj : ∀ i < n, ∀ j < data.length, (rpos + i) % cap ≠ (wpos + j) % cap) :
    readLoop (copyLoop cap buf wpos data) cap rpos n = readLoop buf cap rpos n := by
  induction n generalizing rpos with
  | zero => rfl
  | succ n ih =>
      have h0 : ∀ j < data.length, (wpos + j) % cap ≠ rpos % cap := by
        intro j hj
        have h1 := hdisj 0 (by omega) j hj
        simpa using h1.symm
      have h1 : ∀ i < n, ∀ j < data.length,
          (rpos + 1 + i) % cap ≠ (wpos + j) % cap := by
        intro i hi j hj
        have h2 := hdisj (i + 1) (by omega) j hj
        have h3 : rpos + (i + 1) = rpos + 1 + i := by omega
        rwa [h3] at h2
      rw [readLoop, readLoop,
        getD_copyLoop_of_notin cap buf wpos data (rpos % cap) h0 default,
        ih (rpos + 1) h1]

theorem GetAvailableReadInternal_eq (r : LockFreeRingBuffer α) (readIdx L : Nat)
    (hr : readIdx < r.capacity) (hL : L < r.capacity) :
    r.GetAvailableReadInternal readIdx ((readIdx + L) % r.capacity) = L := by
  unfold GetAvailableReadInternal
  rcases Nat.lt_or_ge (readIdx + L) r.capacity with h | h
  · rw [Nat.mod_eq_of_lt h]
    split <;> omega
  · have hsub : (readIdx + L) % r.capacity = readIdx + L - r.capacity := by
      rw [Nat.mod_eq_sub_mod h, Nat.mod_eq_of_lt (by omega)]
    rw [hsub]
    split <;> omega

theorem Write_spec [Inhabited α] (r : LockFreeRingBuffer α) (q data : List α)
    (hinv : Inv r q) (hfit : q.length + data.length ≤ r.capacity - 1) :
    (r.Write data).2 = true ∧ Inv (r.Write data).1 (q ++ data) := by
  obtain ⟨hbuf, hri, hwi, hqlen, hweq, hq⟩ := hinv
  have hcap : 0 < r.capacity := by omega
  rcases hdata : data with _ | ⟨d, ds⟩
  · have hwnil : r.Write [] = (r, true) := by simp [Write]
    rw [hwnil, List.append_nil]
    exact ⟨rfl, hbuf, hri, hwi, hqlen, hweq, hq⟩
  rw [← hdata]
  have hlen : 0 < data.length := by rw [hdata]; simp
  have havailR : r.GetAvailableReadInternal r.readIndex r.writeIndex = q.length := by
    rw [hweq]
    exact GetAvailableReadInternal_eq r r.readIndex q.length hri (by omega)
  have hne : data.isEmpty = false := by rw [hdata]; rfl
  have hnofail :
      ¬ (r.GetAvailableWriteInternal r.writeIndex r.readIndex < data.length) := by
    unfold GetAvailableWriteInternal
    rw [havailR]
    omega
  rw [Write]
  simp only [hne, Bool.false_eq_true, if_false, hnofail, if_false]
  refine ⟨by trivial, ?_, ?_, ?_, ?_, ?_, ?_⟩
  · simpa [length_copyLoop] using hbuf
  · simpa using hri
  · simpa using Nat.mod_lt (r.writeIndex + data.length) hcap
  · simp; omega
  · simp only [List.length_append]
    rw [hweq, Nat.mod_add_mod, Nat.add_assoc]
  · simp only [List.length_append]
    rw [readLoop_append]
    have hpart1 :
        readLoop (copyLoop r.capacity r.buffer r.writeIndex data) r.capacity
          r.readIndex q.length = q := by
      rw [readLoop_copyLoop_disjoint r.capacity r.buffer r.writeIndex data
        r.readIndex q.length ?_, hq]
      intro i hi j hj hcontra
      have hwj : (r.writeIndex + j) % r.capacity
          = (r.readIndex + (q.length + j)) % r.capacity := by
        rw [hweq, Nat.mod_add_mod, Nat.add_assoc]
      rw [hwj] at hcontra
      have hcancel : i ≡ q.length + j [MOD r.capacity] :=
        Nat.ModEq.add_left_cancel (Nat.ModEq.refl r.readIndex) hcontra
      unfold Nat.ModEq at hcancel
      rw [Nat.mod_eq_of_lt (by omega), Nat.mod_eq_of_lt (by omega)] at hcancel
      omega
    have hpart2 :
        readLoop (copyLoop r.capacity r.buffer r.writeIndex data) r.capacity
          (r.readIndex + q.length) data.length = data := by
      rw [readLoop_congr _ r.capacity (r.readIndex + q.length) r.writeIndex
        data.length ?_]
      · exact readLoop_copyLoop r.capacity r.buffer r.writeIndex data hbuf (by omega)
      · rw [hweq, Nat.mod_mod_of_dvd _ dvd_rfl]
    rw [hpart1, hpart2]

theorem Read_spec [Inhabited α] (r : LockFreeRingBuffer α) (q : List α) (outLen : Nat)
    (hinv : Inv r q) (hout : q.length ≤ outLen) :
    (r.Read outLen).2 = q ∧ Inv (r.Read outLen).1 [] ∧
      (r.Read outLen).1.GetAvailableRead = 0 := by
  obtain ⟨hbuf, hri, hwi, hqlen, hweq, hq⟩ := hinv
  have hcap : 0 < r.capacity := by omega
  rcases Nat.eq_zero_or_pos outLen with hz | hpos
  · subst hz
    have hqnil : q = [] := List.eq_nil_of_length_eq_zero (by omega)
    subst hqnil
    have hwr : r.writeIndex = r.readIndex := by
      rw [hweq]; simpa using Nat.mod_eq_of_lt hri
    refine ⟨by simp [Read], ⟨hbuf, hri, hwi, by omega, hweq, rfl⟩, ?_⟩
    simp only [Read, if_pos rfl]
    unfold GetAvailableRead GetAvailableReadInternal
    simp [hwr]
  have hnz : ¬ (outLen = 0) := by omega
  have havailR : r.GetAvailableReadInternal r.readIndex r.writeIndex = q.length := by
    rw [hweq]
    exact GetAvailableReadInternal_eq r r.readIndex q.length hri (by omega)
  have hmin : min (r.GetAvailableReadInternal r.readIndex r.writeIndex) outLen
      = q.length := by rw [havailR]; omega
  rw [Read]
  simp only [hnz, if_false, hmin]
  refine ⟨hq, ⟨by simpa using hbuf, ?_, by simpa using hwi, by simp, ?_, rfl⟩, ?_⟩
  · simpa using Nat.mod_lt (r.readIndex + q.length) hcap
  · simp only [List.length_nil, Nat.add_zero]
    rw [hweq, Nat.mod_mod_of_dvd _ dvd_rfl]
  · unfold GetAvailableRead GetAvailableReadInternal
    simp only [hweq]
    simp

theorem mkLockFreeRingBuffer_Inv (α : Type) [Inhabited α] (C : Nat) :
    Inv (mkLockFreeRingBuffer α C) [] := by
  refine ⟨?_, ?_, ?_, ?_, ?_, ?_⟩ <;> simp [mkLockFreeRingBuffer, readLoop]

theorem WriteAll_spec [Inhabited α] (r : LockFreeRingBuffer α) (q : List α)
    (blocks : List (List α)) (hinv : Inv r q)
    (hfit : q.length + blocks.flatten.length ≤ r.capacity - 1) :
    (r.WriteAll blocks).2 = true ∧ Inv (r.WriteAll blocks).1 (q ++ blocks.flatten) := by
  induction blocks generalizing r q with
  | nil => simpa [WriteAll] using hinv
  | cons b bs ih =>
      have hfit1 : q.length + b.length ≤ r.capacity - 1 := by
        simp only [List.flatten_cons, List.length_append] at hfit
        omega
      have h1 := Write_spec r q b hinv hfit1
      have hfit2 : (q ++ b).length + bs.flatten.length ≤ (r.Write b).1.capacity - 1 := by
        rw [capacity_Write]
        simp only [List.flatten_cons, List.length_append] at hfit ⊢
        omega
      have h2 := ih (r.Write b).1 (q ++ b) h1.2 hfit2
      refine ⟨?_, ?_⟩
      · simp [WriteAll, h1.1, h2.1]
      · simpa [WriteAll, List.append_assoc] using h2.2

/-- C1: Ring round-trip.  For every sequence of `Write` calls on a ring of
construction capacity `C` whose data lengths total at most `C`, every write
returns `true`; a single subsequent `Read` into a buffer of length at least
the total returns exactly the total count, the samples read are exactly the
concatenation of the written blocks in write order, and `GetAvailableRead`
returns `0` afterwards. -/
theorem lockFreeRingBuffer_roundtrip (α : Type) [Inhabited α] (C : Nat)
    (blocks : List (List α)) (outLen : Nat)
    (htotal : blocks.flatten.length ≤ C)
    (hout : blocks.flatten.length ≤ outLen) :
    ((mkLockFreeRingBuffer α C).WriteAll blocks).2 = true ∧
    (((mkLockFreeRingBuffer α C).WriteAll blocks).1.Read outLen).2.length
      = blocks.flatten.length ∧
    (((mkLockFreeRingBuffer α C).WriteAll blocks).1.Read outLen).2 = blocks.flatten ∧
    (((mkLockFreeRingBuffer α C).WriteAll blocks).1.Read outLen).1.GetAvailableRead
      = 0 := by
  have h0 := mkLockFreeRingBuffer_Inv α C
  have hfit : ([] : List α).length + blocks.flatten.length
      ≤ (mkLockFreeRingBuffer α C).capacity - 1 := by
    have hcapval : (mkLockFreeRingBuffer α C).capacity = C + 1 := rfl
    simp only [List.length_nil, hcapval]
    omega
  have h1 := WriteAll_spec (mkLockFreeRingBuffer α C) [] blocks h0 hfit
  have hinv1 : Inv ((mkLockFreeRingBuffer α C).WriteAll blocks).1 blocks.flatten := by
    simpa using h1.2
  have h2 := Read_spec ((mkLockFreeRingBuffer α C).WriteAll blocks).1 blocks.flatten
    outLen hinv1 hout
  exact ⟨h1.1, by rw [h2.1], h2.1, h2.2.2⟩

/-- Witness for C1 at a concrete instance: capacity 4, blocks `[1,2]` and `[3]`,
output buffer length 3. -/
theorem lockFreeRingBuffer_roundtrip_witness :
    ((mkLockFreeRingBuffer Int 4).WriteAll [[1, 2], [3]]).2 = true ∧
    (((mkLockFreeRingBuffer Int 4).WriteAll [[1, 2], [3]]).1.Read 3).2.length
      = ([[1, 2], [3]] : List (List Int)).flatten.length ∧
    (((mkLockFreeRingBuffer Int 4).WriteAll [[1, 2], [3]]).1.Read 3).2
      = ([[1, 2], [3]] : List (List Int)).flatten ∧
    (((mkLockFreeRingBuffer Int 4).WriteAll [[1, 2], [3]]).1.Read 3).1.GetAvailableRead
      = 0 :=
  lockFreeRingBuffer_roundtrip Int 4 [[1, 2], [3]] 3 (by decide) (by decide)

/-- C2: Write is all-or-nothing.  On any well-formed ring state holding queue
`q`: if the writable count is at least the data length, `Write` appends all of
`data` and returns `true`; if it is smaller, `Write` returns `false` and
leaves the state (indices and stored contents) completely unchanged; in
particular data longer than the construction capacity is always refused, and
an empty span is accepted as a no-op. -/
theorem write_all_or_nothing (α : Type) [Inhabited α] (r : LockFreeRingBuffer α)
    (q data : List α) (hinv : Inv r q) :
    (data.length ≤ r.GetAvailableWriteInternal r.writeIndex r.readIndex →
      (r.Write data).2 = true ∧ Inv (r.Write data).1 (q ++ data)) ∧
    (r.GetAvailableWriteInternal r.writeIndex r.readIndex < data.length →
      (r.Write data).2 = false ∧ (r.Write data).1 = r) ∧
    (r.capacity - 1 < data.length → (r.Write data).2 = false) ∧
    (data = [] → r.Write data = (r, true)) := by
  have hbuf := hinv.1
  have hri := hinv.2.1
  have hwi := hinv.2.2.1
  have hqlen := hinv.2.2.2.1
  have hweq := hinv.2.2.2.2.1
  have havailR : r.GetAvailableReadInternal r.readIndex r.writeIndex = q.length := by
    rw [hweq]
    exact GetAvailableReadInternal_eq r r.readIndex q.length hri (by omega)
  have havailW : r.GetAvailableWriteInternal r.writeIndex r.readIndex
      = r.capacity - 1 - q.length := by
    unfold GetAvailableWriteInternal
    rw [havailR]
  refine ⟨?_, ?_, ?_, ?_⟩
  · intro hle
    exact Write_spec r q data hinv (by omega)
  · intro hlt
    have hne : data.isEmpty = false := by
      rcases data with _ | _
      · simp at hlt
      · rfl
    simp [Write, hne, hlt]
  · intro hbig
    have hlt : r.GetAvailableWriteInternal r.writeIndex r.readIndex < data.length := by
      omega
    have hne : data.isEmpty = false := by
      rcases data with _ | _
      · simp at hlt
      · rfl
    simp [Write, hne, hlt]
  · intro hnil
    subst hnil
    simp [Write]

/-- Witness for C2 at a concrete instance: a capacity-2 ring holding one
sample. -/
theorem write_all_or_nothing_witness :
    (([7, 8] : List Int).length ≤
        (LockFreeRingBuffer.mk 3 [5, 0, 0] 1 0).GetAvailableWriteInternal 1 0 →
      ((LockFreeRingBuffer.mk 3 ([5, 0, 0] : List Int) 1 0).Write [7, 8]).2 = true ∧
      Inv ((LockFreeRingBuffer.mk 3 ([5, 0, 0] : List Int) 1 0).Write [7, 8]).1
        ([5] ++ [7, 8])) ∧
    ((LockFreeRingBuffer.mk 3 ([5, 0, 0] : List Int) 1 0).GetAvailableWriteInternal 1 0
        < ([7, 8] : List Int).length →
      ((LockFreeRingBuffer.mk 3 ([5, 0, 0] : List Int) 1 0).Write [7, 8]).2 = false ∧
      ((LockFreeRingBuffer.mk 3 ([5, 0, 0] : List Int) 1 0).Write [7, 8]).1
        = LockFreeRingBuffer.mk 3 [5, 0, 0] 1 0) ∧
    ((LockFreeRingBuffer.mk 3 ([5, 0, 0] : List Int) 1 0).capacity - 1
        < ([7, 8] : List Int).length →
      ((LockFreeRingBuffer.mk 3 ([5, 0, 0] : List Int) 1 0).Write [7, 8]).2 = false) ∧
    (([7, 8] : List Int) = [] →
      (LockFreeRingBuffer.mk 3 ([5, 0, 0] : List Int) 1 0).Write [7, 8]
        = (LockFreeRingBuffer.mk 3 [5, 0, 0] 1 0, true)) :=
  write_all_or_nothing Int (LockFreeRingBuffer.mk 3 [5, 0, 0] 1 0) [5] [7, 8]
    (by constructor <;> simp [readLoop])

/-- C3: Ring conservation.  In every state reachable by any sequence of
`Write` and `Read` calls on a ring constructed with user capacity `C`, the
readable count plus the writable count equals `C`. -/
theorem ring_conservation (α : Type) [Inhabited α] (C : Nat)
    (r : LockFreeRingBuffer α) (hr : Reachable C r) :
    r.GetAvailableReadInternal r.readIndex r.writeIndex +
      r.GetAvailableWriteInternal r.writeIndex r.readIndex = C := by
  have hshape : r.capacity = C + 1 ∧ r.readIndex < r.capacity ∧
      r.writeIndex < r.capacity := by
    induction hr with
    | init => simp [mkLockFreeRingBuffer]
    | step_write s data hs ih =>
        obtain ⟨hc, h1, h2⟩ := ih
        obtain ⟨hfc, hfr, hfw⟩ := Write_fields s data
        refine ⟨by rw [hfc, hc], by rw [hfc, hfr]; omega, ?_⟩
        rcases hfw with h | h
        · rw [hfc, h]; omega
        · rw [hfc, h]
          exact Nat.mod_lt _ (by omega)
    | step_read s n hs ih =>
        obtain ⟨hc, h1, h2⟩ := ih
        obtain ⟨hfc, hfw, hfr⟩ := Read_fields s n
        refine ⟨by rw [hfc, hc], ?_, by rw [hfc, hfw]; omega⟩
        rcases hfr with h | ⟨k, h⟩
        · rw [hfc, h]; omega
        · rw [hfc, h]
          exact Nat.mod_lt _ (by omega)
  obtain ⟨hc, h1, h2⟩ := hshape
  unfold GetAvailableWriteInternal GetAvailableReadInternal
  split <;> omega

/-- Witness for C3 at a concrete reachable state: capacity 4, after writing
two samples. -/
theorem ring_conservation_witness :
    (((mkLockFreeRingBuffer Int 4).Write [1, 2]).1.GetAvailableReadInternal
        ((mkLockFreeRingBuffer Int 4).Write [1, 2]).1.readIndex
        ((mkLockFreeRingBuffer Int 4).Write [1, 2]).1.writeIndex) +
      (((mkLockFreeRingBuffer Int 4).Write [1, 2]).1.GetAvailableWriteInternal
        ((mkLockFreeRingBuffer Int 4).Write [1, 2]).1.writeIndex
        ((mkLockFreeRingBuffer Int 4).Write [1, 2]).1.readIndex) = 4 :=
  ring_conservation Int 4 ((mkLockFreeRingBuffer Int 4).Write [1, 2]).1
    (Reachable.step_write (mkLockFreeRingBuffer Int 4) [1, 2] Reachable.init)

end LockFreeRingBuffer

end Util

noncomputable section

namespace GuitarDSP

/-- Modelled from the spec: the `GuitarDSP::FFTProcessor` spectrum object is an
external collaborator whose implementation is not under `src/`; a computed
magnitude spectrum is represented here by its bin-magnitude function, and the
spec fixes the bin-to-frequency conversion as `bin * SR / N`. -/
def binFrequency (sampleRate : ℝ) (fftSize : ℕ) (bin : ℕ) : ℝ :=
  (bin : ℝ) * sampleRate / (fftSize : ℝ)

/-- Modelled from the spec: `FFTProcessor`'s band-energy sum between two
frequencies (`ExtractBandEnergy`), implemented outside this repository — the
sum of the `N/2` bin magnitudes whose bin frequency lies in the band. -/
def ExtractBandEnergy (mags : ℕ → ℝ) (sampleRate : ℝ) (fftSize : ℕ)
    (lowFreq highFreq : ℝ) : ℝ :=
  ∑ i ∈ Finset.range (fftSize / 2),
    if lowFreq ≤ binFrequency sampleRate fftSize i ∧
        binFrequency sampleRate fftSize i ≤ highFreq then mags i else 0

/-- Modelled from the spec: `FFTProcessor`'s magnitude-at-frequency lookup,
implemented outside this repository — the magnitude at the nearest bin of the
requested frequency. -/
def GetMagnitudeAtFrequency (mags : ℕ → ℝ) (sampleRate : ℝ) (fftSize : ℕ)
    (freq : ℝ) : ℝ :=
  mags (round (freq * (fftSize : ℝ) / sampleRate)).toNat

/-- Modelled from the spec: `FFTProcessor`'s magnitude-weighted spectral
centroid in Hz, implemented outside this repository, with the spec's `1e-6`
denominator guard returning the neutral value 0. -/
def CalculateSpectralCentroid (mags : ℕ → ℝ) (sampleRate : ℝ) (fftSize : ℕ) : ℝ :=
  let total := ∑ i ∈ Finset.range (fftSize / 2), mags i
  if total < 1e-6 then 0
  else (∑ i ∈ Finset.range (fftSize / 2), binFrequency sampleRate fftSize i * mags i) / total

end GuitarDSP

namespace Analysis

/-- AnalysisConfig (Analyzer.h, lines 11-17). -/
structure AnalysisConfig where
  sampleRate : ℝ
  bufferSize : ℕ

/-- Shared model of `std::clamp` over reals. -/
def clampf (v lo hi : ℝ) : ℝ := max lo (min v hi)

namespace FretBuzz

def g_kFFTSize : ℕ := 2048

def g_kOnsetThreshold : ℝ := 1.5

def g_kHighFreqMin : ℝ := 4000

def g_kHighFreqMax : ℝ := 8000

def g_kNumHarmonics : ℕ := 10

/-- FretBuzzResult (FretBuzzDetector.h).  The `errorMessage` and `stringInfo`
fields are omitted: no analyzer logic reads them and no claim mentions them.
Timestamps are modelled as natural numbers. -/
structure FretBuzzResult where
  timestamp : ℕ
  isValid : Bool
  buzzScore : ℝ
  onsetDetected : Bool
  transientScore : ℝ
  highFreqEnergyScore : ℝ
  inharmonicityScore : ℝ

/-- State of `FretBuzzDetector`.  The `configured` flag models the
`fftProcessor`/`pitchDetector` pointers being non-null (both are set together
by `Configure`); `rmsHistory`, `onsetActive` and `currentStringInfo` are
omitted: the sources never read them on any path a claim mentions.  Since the
spectrum builder and pitch detector are external, `ProcessBuffer` receives
their per-frame outputs as arguments. -/
structure FretBuzzDetector where
  config : AnalysisConfig
  configured : Bool
  audioBuffer : List ℝ
  prevSpectrum : List ℝ
  prevRMS : ℝ
  currentBuzzScore : ℝ
  currentOnsetDetected : Bool
  currentTransientScore : ℝ
  currentHighFreqEnergyScore : ℝ
  currentInharmonicityScore : ℝ
  latestResult : Option FretBuzzResult

/-- FretBuzzResult default constructor (FretBuzzDetector.cpp, lines 53-57):
base `AnalysisResult()` sets `isValid = false`; all scores zero. -/
def mkFretBuzzResult : FretBuzzResult :=
  { timestamp := 0, isValid := false, buzzScore := 0, onsetDetected := false,
    transientScore := 0, highFreqEnergyScore := 0, inharmonicityScore := 0 }

/-- FretBuzzDetector constructor (FretBuzzDetector.cpp, lines 59-66). -/
def mkFretBuzzDetector : FretBuzzDetector :=
  { config := ⟨0, 0⟩, configured := false, audioBuffer := [],
    prevSpectrum := List.replicate (g_kFFTSize / 2) 0, prevRMS := 0,
    currentBuzzScore := 0, currentOnsetDetected := false, currentTransientScore := 0,
    currentHighFreqEnergyScore := 0, currentInharmonicityScore := 0,
    latestResult := some mkFretBuzzResult }

/-- Configure (lines 72-83): stores the config and creates the detector and
FFT processor (modelled by the `configured` flag). -/
def Configure (s : FretBuzzDetector) (newConfig : AnalysisConfig) : FretBuzzDetector :=
  { s with config := newConfig, configured := true }

/-- CalculateRMSEnergy (lines 153-162). -/
def CalculateRMSEnergy (audioData : List ℝ) : ℝ :=
  Real.sqrt ((audioData.map (fun x => x * x)).sum / (audioData.length : ℝ))

/-- CalculateSpectralFlux (lines 164-181): sum of positive bin differences of
the current spectrum against the `prevSpectrum` member. -/
def CalculateSpectralFlux (prevSpectrum : List ℝ) (spectrum : ℕ → ℝ) : ℝ :=
  ∑ i ∈ Finset.range (min prevSpectrum.length (g_kFFTSize / 2)),
    (if spectrum i - prevSpectrum.getD i 0 > 0 then spectrum i - prevSpectrum.getD i 0 else 0)

/-- DetectOnset (lines 137-151).  The C++ member mutates `prevRMS`; the model
returns the onset decision together with the new `prevRMS`. -/
def DetectOnset (s : FretBuzzDetector) (audioData : List ℝ)
    (spectrum : ℕ → ℝ) : Bool × ℝ :=
  let rms := CalculateRMSEnergy audioData
  let spectralFlux := CalculateSpectralFlux s.prevSpectrum spectrum
  let onset :=
    if s.prevRMS > 0 then
      decide (rms / s.prevRMS > g_kOnsetThreshold) || decide (spectralFlux > g_kOnsetThreshold)
    else false
  (onset, rms)

/-- CalculateAttackTime (lines 194-220).  The search loop leaves
`attackSamples` untouched when no sample reaches the threshold; that case is
unreachable for a nonempty frame because the maximal sample itself reaches
`0.9 * maxAmplitude`, and the empty frame takes the `maxAmplitude < 0.01`
early return, so `List.findIdx` coincides with the loop. -/
def CalculateAttackTime (config : AnalysisConfig) (audioData : List ℝ) : ℝ :=
  let maxAmplitude := audioData.foldl (fun m x => max m |x|) 0
  if maxAmplitude < 0.01 then 1
  else
    (audioData.findIdx (fun x => decide (|x| ≥ maxAmplitude * 0.9)) : ℝ) / config.sampleRate

/-- CalculateZeroCrossingRate (lines 222-240). -/
def CalculateZeroCrossingRate (config : AnalysisConfig) (audioData : List ℝ) : ℝ :=
  if audioData.length < 2 then 0
  else
    let crossings := (audioData.zip audioData.tail).countP
      (fun p => decide ((p.1 ≥ 0 ∧ p.2 < 0) ∨ (p.1 < 0 ∧ p.2 ≥ 0)))
    (crossings : ℝ) / ((audioData.length : ℝ) / config.sampleRate)

/-- AnalyzeTransient (lines 183-192). -/
def AnalyzeTransient (config : AnalysisConfig) (audioData : List ℝ) : ℝ :=
  let attackScore := clampf (1 - CalculateAttackTime config audioData / 0.1) 0 1
  let zcrScore := clampf (CalculateZeroCrossingRate config audioData / 1000) 0 1
  (attackScore + zcrScore) / 2

/-- AnalyzeHighFrequencyNoise (lines 242-254). -/
def AnalyzeHighFrequencyNoise (config : AnalysisConfig) (spectrum : ℕ → ℝ) : ℝ :=
  let highFreqEnergy :=
    GuitarDSP.ExtractBandEnergy spectrum config.sampleRate g_kFFTSize g_kHighFreqMin g_kHighFreqMax
  let totalEnergy := GuitarDSP.ExtractBandEnergy spectrum config.sampleRate g_kFFTSize 80 12000
  if totalEnergy < 1e-6 then 0
  else clampf (highFreqEnergy / totalEnergy) 0 1

/-- ExtractHarmonics (lines 282-302). -/
def ExtractHarmonics (config : AnalysisConfig) (spectrum : ℕ → ℝ)
    (fundamental : ℝ) : List ℝ :=
  if config.sampleRate ≤ 0 then []
  else
    (List.range g_kNumHarmonics).map fun k =>
      GuitarDSP.GetMagnitudeAtFrequency spectrum config.sampleRate g_kFFTSize
        (fundamental * ((k + 1 : ℕ) : ℝ))

/-- The expected-bin computation of CalculateInharmonicityMetric (line 318):
`static_cast of expectedFreq / binWidth to size_t`, i.e. truncation. -/
def fbExpectedBin (expectedFreq binWidth : ℝ) : ℕ := (⌊expectedFreq / binWidth⌋).toNat

/-- The search-window offsets of CalculateInharmonicityMetric (line 323). -/
def fbOffsets : List ℤ := [-2, -1, 0, 1, 2]

/-- CalculateInharmonicityMetric (lines 304-343). -/
def CalculateInharmonicityMetric (config : AnalysisConfig) (spectrum : ℕ → ℝ)
    (harmonics : List ℝ) (fundamental : ℝ) : ℝ :=
  if harmonics = [] ∨ fundamental ≤ 0 then 0
  else
    let binWidth := config.sampleRate / (g_kFFTSize : ℝ)
    let totalDeviation := ((List.range harmonics.length).map fun n =>
      let expectedFreq := fundamental * ((n + 1 : ℕ) : ℝ)
      let expectedBin := fbExpectedBin expectedFreq binWidth
      let actualBin := (fbOffsets.foldl (fun acc offset =>
          let checkBin : ℤ := (expectedBin : ℤ) + offset
          if 0 ≤ checkBin ∧ checkBin < ((g_kFFTSize : ℤ) / 2) then
            if spectrum checkBin.toNat > acc.1 then (spectrum checkBin.toNat, checkBin.toNat)
            else acc
          else acc) ((0 : ℝ), expectedBin)).2
      |(actualBin : ℝ) * binWidth - expectedFreq| / expectedFreq).sum
    clampf (totalDeviation / (harmonics.length : ℝ)) 0 1

/-- AnalyzeInharmonicity (lines 256-280).  The `currentStringInfo`
classification side effect at confidence above 0.85 is omitted (no claim and
no score depends on it). -/
def AnalyzeInharmonicity (s : FretBuzzDetector) (spectrum : ℕ → ℝ)
    (pitch : Option (ℝ × ℝ)) : ℝ :=
  if ¬ s.configured ∨ s.audioBuffer = [] then 0
  else
    match pitch with
    | none => 0
    | some (frequency, confidence) =>
        if confidence < 0.5 then 0
        else
          CalculateInharmonicityMetric s.config spectrum
            (ExtractHarmonics s.config spectrum frequency) frequency

/-- UpdateResult (lines 345-359): publishes a fresh valid snapshot of the
current scores. -/
def UpdateResult (s : FretBuzzDetector) (now : ℕ) : FretBuzzDetector :=
  let result : FretBuzzResult :=
    { timestamp := now, isValid := true, buzzScore := s.currentBuzzScore,
      onsetDetected := s.currentOnsetDetected,
      transientScore := s.currentTransientScore,
      highFreqEnergyScore := s.currentHighFreqEnergyScore,
      inharmonicityScore := s.currentInharmonicityScore }
  { s with latestResult := some result }

/-- ProcessBuffer (lines 85-113).  `spectrum` and `pitch` are the per-frame
outputs of the external FFT processor and pitch detector for `audioData`.
Note the source order: `prevSpectrum` is overwritten with the current frame's
spectrum (lines 96-100) before `DetectOnset` is called (line 102). -/
def ProcessBuffer (s : FretBuzzDetector) (audioData : List ℝ)
    (spectrum : ℕ → ℝ) (pitch : Option (ℝ × ℝ)) (now : ℕ) : FretBuzzDetector :=
  if ¬ s.configured then s
  else
    let s1 := { s with
      audioBuffer := audioData,
      prevSpectrum := (List.range s.prevSpectrum.length).map spectrum }
    let od := DetectOnset s1 audioData spectrum
    let s2 := { s1 with prevRMS := od.2, currentOnsetDetected := od.1 }
    let transientScore := AnalyzeTransient s2.config audioData
    let highFreqScore := AnalyzeHighFrequencyNoise s2.config spectrum
    let inharmonicityScore := AnalyzeInharmonicity s2 spectrum pitch
    let buzzScore := 0.3 * transientScore + 0.4 * highFreqScore + 0.3 * inharmonicityScore
    let s3 := { s2 with
      currentTransientScore := transientScore,
      currentHighFreqEnergyScore := highFreqScore,
      currentInharmonicityScore := inharmonicityScore,
      currentBuzzScore := buzzScore }
    UpdateResult s3 now

/-- Reset (lines 121-135). -/
def Reset (s : FretBuzzDetector) (now : ℕ) : FretBuzzDetector :=
  let s1 := { s with
    prevRMS := 0,
    prevSpectrum := List.replicate s.prevSpectrum.length 0,
    currentBuzzScore := 0, currentOnsetDetected := false,
    currentTransientScore := 0,
    currentHighFreqEnergyScore := 0, currentInharmonicityScore := 0 }
  UpdateResult s1 now

/-- GetLatestResult (lines 115-119). -/
def GetLatestResult (s : FretBuzzDetector) : Option FretBuzzResult := s.latestResult

end FretBuzz

namespace StringHealth

def g_kFFTSize : ℕ := 2048

def g_kNumHarmonics : ℕ := 10

def g_kDecayHistorySize : ℕ := 50

def g_kMinDecayRate : ℝ := -50

def g_kMaxDecayRate : ℝ := -5

/-- StringHealthResult (StringHealthAnalyzer.h); `errorMessage` and
`stringInfo` omitted as for the fret-buzz analyzer. -/
structure StringHealthResult where
  timestamp : ℕ
  isValid : Bool
  healthScore : ℝ
  decayRate : ℝ
  spectralCentroid : ℝ
  inharmonicity : ℝ
  fundamentalFrequency : ℝ

/-- State of `StringHealthAnalyzer` (StringHealthAnalyzer.h); timestamps are
modelled as natural numbers of milliseconds on the monotonic clock. -/
structure StringHealthAnalyzer where
  config : AnalysisConfig
  configured : Bool
  harmonicEnergies : List (List ℝ)
  timestamps : List ℕ
  currentFundamental : ℝ
  analysisFrameCount : ℕ
  currentHealthScore : ℝ
  currentDecayRate : ℝ
  currentSpectralCentroid : ℝ
  currentInharmonicity : ℝ
  latestResult : Option StringHealthResult

/-- StringHealthResult default constructor (StringHealthAnalyzer.cpp,
lines 10-14): base `AnalysisResult()` sets `isValid = false`; all fields 0. -/
def mkStringHealthResult : StringHealthResult :=
  { timestamp := 0, isValid := false, healthScore := 0, decayRate := 0,
    spectralCentroid := 0, inharmonicity := 0, fundamentalFrequency := 0 }

/-- StringHealthAnalyzer constructor (lines 16-24). -/
def mkStringHealthAnalyzer : StringHealthAnalyzer :=
  { config := ⟨0, 0⟩, configured := false, harmonicEnergies := [], timestamps := [],
    currentFundamental := 0, analysisFrameCount := 0, currentHealthScore := 0,
    currentDecayRate := 0, currentSpectralCentroid := 0, currentInharmonicity := 0,
    latestResult := some mkStringHealthResult }

/-- Configure (lines 30-41). -/
def Configure (s : StringHealthAnalyzer) (newConfig : AnalysisConfig) :
    StringHealthAnalyzer :=
  { s with config := newConfig, configured := true }

/-- TrackHarmonicEnergy (lines 106-126). -/
def TrackHarmonicEnergy (s : StringHealthAnalyzer) (spectrum : ℕ → ℝ)
    (fundamental : ℝ) (now : ℕ) : StringHealthAnalyzer :=
  let energies := (List.range g_kNumHarmonics).map fun k =>
    GuitarDSP.GetMagnitudeAtFrequency spectrum s.config.sampleRate g_kFFTSize
      (fundamental * ((k + 1 : ℕ) : ℝ))
  let hs := s.harmonicEnergies ++ [energies]
  let ts := s.timestamps ++ [now]
  if hs.length > g_kDecayHistorySize then
    { s with harmonicEnergies := hs.tail, timestamps := ts.tail }
  else
    { s with harmonicEnergies := hs, timestamps := ts }

/-- FitExponentialDecay (lines 128-187). -/
def FitExponentialDecay (s : StringHealthAnalyzer) : ℝ :=
  if s.harmonicEnergies.length < 2 ∨ s.timestamps.length < 2 then 0
  else
    let avgEnergies := s.harmonicEnergies.map fun es => es.sum / (es.length : ℝ)
    let t0 := s.timestamps.getD 0 0
    let pairs := (avgEnergies.zip s.timestamps).filter fun p => decide (p.1 > 1e-6)
    let logEnergies := pairs.map fun p => Real.log p.1
    let times := pairs.map fun p => ((p.2 : ℝ) - (t0 : ℝ)) / 1000
    if logEnergies.length < 2 then 0
    else
      let meanTime := times.sum / (times.length : ℝ)
      let meanLogE := logEnergies.sum / (logEnergies.length : ℝ)
      let numerator :=
        ((times.zip logEnergies).map fun p => (p.1 - meanTime) * (p.2 - meanLogE)).sum
      let denominator := (times.map fun t => (t - meanTime) * (t - meanTime)).sum
      if denominator < 1e-6 then 0
      else numerator / denominator * 8.686

/-- AnalyzeDecay (lines 96-104). -/
def AnalyzeDecay (s : StringHealthAnalyzer) : ℝ :=
  if s.harmonicEnergies.length < 10 then 0 else FitExponentialDecay s

/-- The expected-bin computation of FindHarmonicPeaks (line 241):
`static_cast of expectedFreq / binWidth to size_t`, i.e. truncation. -/
def shExpectedBin (expectedFreq binWidth : ℝ) : ℕ := (⌊expectedFreq / binWidth⌋).toNat

/-- The search-window offsets of FindHarmonicPeaks (line 246). -/
def shOffsets : List ℤ := [-3, -2, -1, 0, 1, 2, 3]

/-- FindHarmonicPeaks (lines 225-266). -/
def FindHarmonicPeaks (config : AnalysisConfig) (spectrum : ℕ → ℝ)
    (fundamental : ℝ) : List ℝ :=
  if config.sampleRate ≤ 0 then []
  else
    let binWidth := config.sampleRate / (g_kFFTSize : ℝ)
    (List.range g_kNumHarmonics).map fun k =>
      let expectedFreq := fundamental * ((k + 1 : ℕ) : ℝ)
      let expectedBin := shExpectedBin expectedFreq binWidth
      let peakBin := (shOffsets.foldl (fun acc offset =>
          let checkBin : ℤ := (expectedBin : ℤ) + offset
          if 0 ≤ checkBin ∧ checkBin < ((g_kFFTSize : ℤ) / 2) then
            if spectrum checkBin.toNat > acc.1 then (spectrum checkBin.toNat, checkBin.toNat)
            else acc
          else acc) ((0 : ℝ), expectedBin)).2
      (peakBin : ℝ) * binWidth

/-- CalculateInharmonicity (lines 195-223). -/
def CalculateInharmonicity (config : AnalysisConfig) (spectrum : ℕ → ℝ)
    (fundamental : ℝ) : ℝ :=
  if fundamental ≤ 0 then 0
  else
    let harmonicPeaks := FindHarmonicPeaks config spectrum fundamental
    if harmonicPeaks = [] then 0
    else
      let totalDeviation := ((List.range harmonicPeaks.length).map fun n =>
        let expectedFreq := fundamental * ((n + 1 : ℕ) : ℝ)
        let actualFreq := harmonicPeaks.getD n 0
        if expectedFreq > 0 ∧ actualFreq > 0 then |actualFreq - expectedFreq| / expectedFreq
        else 0).sum
      clampf (totalDeviation / (harmonicPeaks.length : ℝ)) 0 1

/-- NormalizeDecayRate (lines 268-272). -/
def NormalizeDecayRate (decayRate : ℝ) : ℝ :=
  clampf ((decayRate - g_kMinDecayRate) / (g_kMaxDecayRate - g_kMinDecayRate)) 0 1

/-- NormalizeSpectralFeatures (lines 274-278). -/
def NormalizeSpectralFeatures (centroid : ℝ) : ℝ :=
  clampf (1 - centroid / 5000) 0 1

/-- CalculateHealthScore (lines 280-288). -/
def CalculateHealthScore (s : StringHealthAnalyzer) : ℝ :=
  clampf (0.3 * NormalizeDecayRate s.currentDecayRate
    + 0.3 * NormalizeSpectralFeatures s.currentSpectralCentroid
    + 0.4 * (1 - s.currentInharmonicity)) 0 1

/-- UpdateResult (lines 290-304). -/
def UpdateResult (s : StringHealthAnalyzer) (now : ℕ) : StringHealthAnalyzer :=
  let result : StringHealthResult :=
    { timestamp := now, isValid := true, healthScore := s.currentHealthScore,
      decayRate := s.currentDecayRate, spectralCentroid := s.currentSpectralCentroid,
      inharmonicity := s.currentInharmonicity,
      fundamentalFrequency := s.currentFundamental }
  { s with latestResult := some result }

/-- ProcessBuffer (lines 43-73).  `spectrum` and `pitch` are the per-frame
outputs of the external FFT processor and pitch detector for `audioData`.
The `currentStringInfo` classification at confidence above 0.85 is omitted. -/
def ProcessBuffer (s : StringHealthAnalyzer) (audioData : List ℝ)
    (spectrum : ℕ → ℝ) (pitch : Option (ℝ × ℝ)) (now : ℕ) : StringHealthAnalyzer :=
  if ¬ s.configured then s
  else
    let s1 :=
      match pitch with
      | some (frequency, confidence) =>
          if confidence > 0.5 then
            TrackHarmonicEnergy { s with currentFundamental := frequency }
              spectrum frequency now
          else s
      | none => s
    let s2 := { s1 with
      currentDecayRate := AnalyzeDecay s1,
      currentSpectralCentroid :=
        GuitarDSP.CalculateSpectralCentroid spectrum s1.config.sampleRate g_kFFTSize,
      currentInharmonicity :=
        CalculateInharmonicity s1.config spectrum s1.currentFundamental }
    let s3 := { s2 with currentHealthScore := CalculateHealthScore s2 }
    let s4 := UpdateResult s3 now
    { s4 with analysisFrameCount := s4.analysisFrameCount + 1 }

/-- Reset (lines 81-94). -/
def Reset (s : StringHealthAnalyzer) (now : ℕ) : StringHealthAnalyzer :=
  let s1 := { s with
    currentFundamental := 0, analysisFrameCount := 0, currentHealthScore := 0,
    currentDecayRate := 0, currentSpectralCentroid := 0, currentInharmonicity := 0,
    harmonicEnergies := ([] : List (List ℝ)), timestamps := ([] : List ℕ) }
  UpdateResult s1 now

/-- GetLatestResult (lines 75-79). -/
def GetLatestResult (s : StringHealthAnalyzer) : Option StringHealthResult :=
  s.latestResult

end StringHealth

namespace Intonation

/-- IntonationState (IntonationAnalyzer.h). -/
inductive IntonationState where
  | Idle
  | OpenString
  | WaitFor12thFret
  | FrettedString
  | Complete
  deriving DecidableEq, Repr

def g_kConfidenceThreshold : ℝ := 0.7

def g_kPitchAccumulatorSize : ℕ := 100

def g_kStableTimeRequired : ℤ := 500

def g_kInTuneTolerance : ℝ := 5

def g_kStabilityThreshold : ℝ := 2

/-- IntonationResult (IntonationAnalyzer.h); `errorMessage` omitted. -/
structure IntonationResult where
  timestamp : ℕ
  isValid : Bool
  state : IntonationState
  openStringFrequency : ℝ
  frettedStringFrequency : ℝ
  expectedFrettedFrequency : ℝ
  centDeviation : ℝ
  isInTune : Bool

/-- State of `IntonationAnalyzer`; `stateStartTime` is milliseconds on the
monotonic clock, modelled as a natural number. -/
structure IntonationAnalyzer where
  config : AnalysisConfig
  configured : Bool
  currentState : IntonationState
  pitchAccumulator : List ℝ
  pitchCount : ℕ
  stateStartTime : ℕ
  openStringFreq : ℝ
  frettedStringFreq : ℝ
  centDeviation : ℝ
  isInTune : Bool
  latestResult : Option IntonationResult

/-- IntonationResult default constructor (IntonationAnalyzer.cpp,
lines 10-14). -/
def mkIntonationResult : IntonationResult :=
  { timestamp := 0, isValid := false, state := IntonationState.Idle,
    openStringFrequency := 0, frettedStringFrequency := 0,
    expectedFrettedFrequency := 0, centDeviation := 0, isInTune := false }

/-- IntonationAnalyzer constructor (lines 16-22); the construction instant is
taken as time 0. -/
def mkIntonationAnalyzer : IntonationAnalyzer :=
  { config := ⟨0, 0⟩, configured := false, currentState := IntonationState.Idle,
    pitchAccumulator := List.replicate g_kPitchAccumulatorSize 0, pitchCount := 0,
    stateStartTime := 0, openStringFreq := 0, frettedStringFreq := 0,
    centDeviation := 0, isInTune := false, latestResult := some mkIntonationResult }

/-- Configure (lines 28-38). -/
def Configure (s : IntonationAnalyzer) (newConfig : AnalysisConfig) :
    IntonationAnalyzer :=
  { s with config := newConfig, configured := true }

/-- AccumulatePitch (lines 168-180): push while below capacity, else
`std::shift_left` by one and overwrite the last slot. -/
def AccumulatePitch (s : IntonationAnalyzer) (frequency : ℝ) : IntonationAnalyzer :=
  if s.pitchCount < g_kPitchAccumulatorSize then
    { s with
      pitchAccumulator := s.pitchAccumulator.set s.pitchCount frequency,
      pitchCount := s.pitchCount + 1 }
  else
    { s with pitchAccumulator := s.pitchAccumulator.tail ++ [frequency] }

/-- GetStablePitch (lines 182-201): median of the first `pitchCount`
accumulated pitches. -/
def GetStablePitch (s : IntonationAnalyzer) : ℝ :=
  if s.pitchCount = 0 then 0
  else
    let sortedPitches :=
      (s.pitchAccumulator.take s.pitchCount).mergeSort fun a b => decide (a ≤ b)
    let medianIndex := sortedPitches.length / 2
    if sortedPitches.length % 2 = 0 then
      (sortedPitches.getD (medianIndex - 1) 0 + sortedPitches.getD medianIndex 0) / 2
    else sortedPitches.getD medianIndex 0

/-- CalculateStandardDeviation (lines 214-233). -/
def CalculateStandardDeviation (s : IntonationAnalyzer) : ℝ :=
  if s.pitchCount = 0 then 0
  else
    let taken := s.pitchAccumulator.take s.pitchCount
    let mean := taken.sum / (s.pitchCount : ℝ)
    let variance := (taken.map fun x => (x - mean) * (x - mean)).sum / (s.pitchCount : ℝ)
    Real.sqrt variance

/-- HasStablePitch (lines 203-212). -/
def HasStablePitch (s : IntonationAnalyzer) : Bool :=
  if s.pitchCount < 10 then false
  else decide (CalculateStandardDeviation s < g_kStabilityThreshold)

/-- TransitionToOpenString (lines 139-145). -/
def TransitionToOpenString (s : IntonationAnalyzer) (frequency : ℝ) (now : ℕ) :
    IntonationAnalyzer :=
  { s with
    currentState := IntonationState.OpenString, openStringFreq := frequency,
    pitchCount := 0, stateStartTime := now }

/-- TransitionToWaitFor12thFret (lines 147-152). -/
def TransitionToWaitFor12thFret (s : IntonationAnalyzer) (now : ℕ) :
    IntonationAnalyzer :=
  { s with
    currentState := IntonationState.WaitFor12thFret, pitchCount := 0,
    stateStartTime := now }

/-- TransitionToFrettedString (lines 154-160). -/
def TransitionToFrettedString (s : IntonationAnalyzer) (frequency : ℝ) (now : ℕ) :
    IntonationAnalyzer :=
  { s with
    currentState := IntonationState.FrettedString, frettedStringFreq := frequency,
    pitchCount := 0, stateStartTime := now }

/-- CalculateDeviation (lines 235-249). -/
def CalculateDeviation (s : IntonationAnalyzer) : IntonationAnalyzer :=
  let expectedFretted := s.openStringFreq * 2
  if s.frettedStringFreq > 0 ∧ expectedFretted > 0 then
    let cd := 1200 * Real.logb 2 (s.frettedStringFreq / expectedFretted)
    { s with centDeviation := cd, isInTune := decide (|cd| ≤ g_kInTuneTolerance) }
  else
    { s with centDeviation := 0, isInTune := false }

/-- TransitionToComplete (lines 162-166). -/
def TransitionToComplete (s : IntonationAnalyzer) : IntonationAnalyzer :=
  CalculateDeviation { s with currentState := IntonationState.Complete }

/-- UpdateStateMachine (lines 84-137). -/
def UpdateStateMachine (s : IntonationAnalyzer) (now : ℕ) : IntonationAnalyzer :=
  match s.currentState with
  | IntonationState.Idle =>
      if HasStablePitch s then TransitionToOpenString s (GetStablePitch s) now else s
  | IntonationState.OpenString =>
      if HasStablePitch s then
        if (now : ℤ) - (s.stateStartTime : ℤ) ≥ g_kStableTimeRequired then
          TransitionToWaitFor12thFret s now
        else s
      else s
  | IntonationState.WaitFor12thFret =>
      if HasStablePitch s then
        let currentPitch := GetStablePitch s
        let expectedFretted := s.openStringFreq * 2
        if |currentPitch - expectedFretted| / expectedFretted < 0.1 then
          TransitionToFrettedString s currentPitch now
        else s
      else s
  | IntonationState.FrettedString =>
      if HasStablePitch s then
        if (now : ℤ) - (s.stateStartTime : ℤ) ≥ g_kStableTimeRequired then
          TransitionToComplete s
        else s
      else s
  | IntonationState.Complete => s

/-- UpdateResult (lines 251-265). -/
def UpdateResult (s : IntonationAnalyzer) (now : ℕ) : IntonationAnalyzer :=
  let result : IntonationResult :=
    { timestamp := now, isValid := true, state := s.currentState,
      openStringFrequency := s.openStringFreq,
      frettedStringFrequency := s.frettedStringFreq,
      expectedFrettedFrequency := s.openStringFreq * 2,
      centDeviation := s.centDeviation, isInTune := s.isInTune }
  { s with latestResult := some result }

/-- ProcessBuffer (lines 40-62).  `pitch` is the external pitch detector's
output for `audioData`; `now` is the current instant, used both for the
steady-clock reads inside the state machine and for the snapshot timestamp. -/
def ProcessBuffer (s : IntonationAnalyzer) (audioData : List ℝ)
    (pitch : Option (ℝ × ℝ)) (now : ℕ) : IntonationAnalyzer :=
  if ¬ s.configured then s
  else
    let s1 :=
      match pitch with
      | some (frequency, confidence) =>
          if confidence ≥ g_kConfidenceThreshold then
            UpdateStateMachine (AccumulatePitch s frequency) now
          else s
      | none => s
    UpdateResult s1 now

/-- Reset (lines 70-82). -/
def Reset (s : IntonationAnalyzer) (now : ℕ) : IntonationAnalyzer :=
  let s1 := { s with
    currentState := IntonationState.Idle, pitchCount := 0,
    pitchAccumulator := List.replicate s.pitchAccumulator.length (0 : ℝ),
    openStringFreq := (0 : ℝ), frettedStringFreq := (0 : ℝ),
    centDeviation := (0 : ℝ), isInTune := false, stateStartTime := now }
  UpdateResult s1 now

/-- GetLatestResult (lines 64-68). -/
def GetLatestResult (s : IntonationAnalyzer) : Option IntonationResult :=
  s.latestResult

/-- The immediate successor in the calibration chain
`Idle → OpenString → WaitFor12thFret → FrettedString → Complete`. -/
def succState : IntonationState → IntonationState
  | IntonationState.Idle => IntonationState.OpenString
  | IntonationState.OpenString => IntonationState.WaitFor12thFret
  | IntonationState.WaitFor12thFret => IntonationState.FrettedString
  | IntonationState.FrettedString => IntonationState.Complete
  | IntonationState.Complete => IntonationState.Complete

theorem UpdateResult_currentState (s : IntonationAnalyzer) (now : ℕ) :
    (UpdateResult s now).currentState = s.currentState := rfl

theorem AccumulatePitch_currentState (s : IntonationAnalyzer) (f : ℝ) :
    (AccumulatePitch s f).currentState = s.currentState := by
  unfold AccumulatePitch
  split <;> rfl

theorem UpdateStateMachine_forward (s : IntonationAnalyzer) (now : ℕ) :
    (UpdateStateMachine s now).currentState = s.currentState ∨
    (UpdateStateMachine s now).currentState = succState s.currentState := by
  cases hstate : s.currentState with
  | Idle =>
      simp only [UpdateStateMachine, hstate, succState]
      split
      · right; rfl
      · left; exact hstate
  | OpenString =>
      simp only [UpdateStateMachine, hstate, succState]
      split
      · split
        · right; rfl
        · left; exact hstate
      · left; exact hstate
  | WaitFor12thFret =>
      simp only [UpdateStateMachine, hstate, succState]
      split
      · split
        · right; rfl
        · left; exact hstate
      · left; exact hstate
  | FrettedString =>
      simp only [UpdateStateMachine, hstate, succState]
      split
      · split
        · right
          simp [TransitionToComplete, CalculateDeviation]
          split <;> rfl
        · left; exact hstate
      · left; exact hstate
  | Complete =>
      left
      simp only [UpdateStateMachine, hstate]

theorem TransitionToComplete_spec (s : IntonationAnalyzer) :
    (TransitionToComplete s).currentState = IntonationState.Complete ∧
    (0 < s.frettedStringFreq ∧ 0 < 2 * s.openStringFreq →
      (TransitionToComplete s).centDeviation
        = 1200 * Real.logb 2 (s.frettedStringFreq / (2 * s.openStringFreq)) ∧
      ((TransitionToComplete s).isInTune = true ↔
        |(TransitionToComplete s).centDeviation| ≤ 5)) ∧
    ((s.frettedStringFreq ≤ 0 ∨ 2 * s.openStringFreq ≤ 0) →
      (TransitionToComplete s).centDeviation = 0 ∧
      (TransitionToComplete s).isInTune = false) := by
  unfold TransitionToComplete CalculateDeviation
  by_cases hc : s.frettedStringFreq > 0 ∧ s.openStringFreq * 2 > 0
  · rw [if_pos (by exact hc)]
    refine ⟨rfl, ?_, ?_⟩
    · intro h
      constructor
      · show 1200 * Real.logb 2 (s.frettedStringFreq / (s.openStringFreq * 2)) = _
        rw [mul_comm s.openStringFreq 2]
      · exact decide_eq_true_iff
    · intro h
      exfalso
      obtain ⟨h1, h2⟩ := hc
      rcases h with h | h <;> nlinarith
  · rw [if_neg (by exact hc)]
    refine ⟨rfl, ?_, fun _ => ⟨rfl, rfl⟩⟩
    intro ⟨h1, h2⟩
    exfalso
    exact hc ⟨h1, by nlinarith⟩

/-- C7: Intonation deviation at Complete.  Whenever `UpdateStateMachine` moves
the analyzer into the `Complete` state, the resulting `centDeviation` is
`1200 * log2(frettedStringFreq / (2 * openStringFreq))` with
`isInTune ↔ |centDeviation| ≤ 5` when both frequencies are positive, and
`centDeviation = 0` with `isInTune = false` when either frequency is ≤ 0. -/
theorem intonation_deviation_at_complete (s : IntonationAnalyzer) (now : ℕ)
    (hnot : s.currentState ≠ IntonationState.Complete)
    (henter : (UpdateStateMachine s now).currentState = IntonationState.Complete) :
    (0 < s.frettedStringFreq ∧ 0 < 2 * s.openStringFreq →
      (UpdateStateMachine s now).centDeviation
        = 1200 * Real.logb 2 (s.frettedStringFreq / (2 * s.openStringFreq)) ∧
      ((UpdateStateMachine s now).isInTune = true ↔
        |(UpdateStateMachine s now).centDeviation| ≤ 5)) ∧
    ((s.frettedStringFreq ≤ 0 ∨ 2 * s.openStringFreq ≤ 0) →
      (UpdateStateMachine s now).centDeviation = 0 ∧
      (UpdateStateMachine s now).isInTune = false) := by
  cases hstate : s.currentState with
  | Idle =>
      rw [hstate] at hnot
      simp only [UpdateStateMachine, hstate] at henter
      split at henter
      · simp [TransitionToOpenString] at henter
      · exact absurd (hstate ▸ henter) (by simp [hstate])
  | OpenString =>
      simp only [UpdateStateMachine, hstate] at henter
      split at henter
      · split at henter
        · simp [TransitionToWaitFor12thFret] at henter
        · exact absurd (hstate ▸ henter) (by simp [hstate])
      · exact absurd (hstate ▸ henter) (by simp [hstate])
  | WaitFor12thFret =>
      simp only [UpdateStateMachine, hstate] at henter
      split at henter
      · split at henter
        · simp [TransitionToFrettedString] at henter
        · exact absurd (hstate ▸ henter) (by simp [hstate])
      · exact absurd (hstate ▸ henter) (by simp [hstate])
  | FrettedString =>
      simp only [UpdateStateMachine, hstate] at henter ⊢
      split at henter
      case isTrue h1 =>
        split at henter
        case isTrue h2 =>
          rw [if_pos h1, if_pos h2]
          exact ⟨(TransitionToComplete_spec s).2.1, (TransitionToComplete_spec s).2.2⟩
        case isFalse h2 =>
          rw [hstate] at henter
          simp at henter
      case isFalse h1 =>
        rw [hstate] at henter
        simp at henter
  | Complete => exact absurd hstate hnot

/-- C8: Forward-only state machine.  Every `ProcessBuffer` call either keeps
the current state or moves it to its immediate successor in the chain
`Idle → OpenString → WaitFor12thFret → FrettedString → Complete`; once in
`Complete` the state never changes, and `Reset` returns the analyzer to
`Idle`. -/
theorem intonation_forward_only (s : IntonationAnalyzer) (audioData : List ℝ)
    (pitch : Option (ℝ × ℝ)) (now : ℕ) :
    ((ProcessBuffer s audioData pitch now).currentState = s.currentState ∨
      (ProcessBuffer s audioData pitch now).currentState = succState s.currentState) ∧
    (s.currentState = IntonationState.Complete →
      (ProcessBuffer s audioData pitch now).currentState = IntonationState.Complete) ∧
    (Reset s now).currentState = IntonationState.Idle := by
  have hmain : (ProcessBuffer s audioData pitch now).currentState = s.currentState ∨
      (ProcessBuffer s audioData pitch now).currentState = succState s.currentState := by
    unfold ProcessBuffer
    split
    · left; rfl
    · rcases pitch with _ | ⟨f, c⟩
      · left; rfl
      · dsimp only
        split
        · rw [UpdateResult_currentState]
          have h := UpdateStateMachine_forward (AccumulatePitch s f) now
          rwa [AccumulatePitch_currentState] at h
        · left; rfl
  refine ⟨hmain, ?_, rfl⟩
  intro hc
  rcases hmain with h | h
  · rw [h, hc]
  · rw [h, hc]
    rfl

/-- C9: Confidence-gated stepping.  On a `ProcessBuffer` call of the
configured analyzer where the detector returns no pitch or a confidence below
0.7, the call is exactly `UpdateResult`: the state-machine state, the pitch
accumulator and count, the dwell stamp and all measured fields are unchanged,
and only a fresh snapshot of the unchanged fields with the new timestamp is
published. -/
theorem intonation_confidence_gate (s : IntonationAnalyzer) (audioData : List ℝ)
    (pitch : Option (ℝ × ℝ)) (now : ℕ)
    (hconf : s.configured = true)
    (hskip : pitch = none ∨ ∃ f c, pitch = some (f, c) ∧ c < g_kConfidenceThreshold) :
    ProcessBuffer s audioData pitch now = UpdateResult s now ∧
    (ProcessBuffer s audioData pitch now).currentState = s.currentState ∧
    (ProcessBuffer s audioData pitch now).pitchAccumulator = s.pitchAccumulator ∧
    (ProcessBuffer s audioData pitch now).pitchCount = s.pitchCount ∧
    (ProcessBuffer s audioData pitch now).stateStartTime = s.stateStartTime ∧
    (ProcessBuffer s audioData pitch now).openStringFreq = s.openStringFreq ∧
    (ProcessBuffer s audioData pitch now).frettedStringFreq = s.frettedStringFreq ∧
    (ProcessBuffer s audioData pitch now).centDeviation = s.centDeviation ∧
    (ProcessBuffer s audioData pitch now).isInTune = s.isInTune ∧
    (ProcessBuffer s audioData pitch now).latestResult = some
      { timestamp := now, isValid := true, state := s.currentState,
        openStringFrequency := s.openStringFreq,
        frettedStringFrequency := s.frettedStringFreq,
        expectedFrettedFrequency := s.openStringFreq * 2,
        centDeviation := s.centDeviation, isInTune := s.isInTune } := by
  have hmain : ProcessBuffer s audioData pitch now = UpdateResult s now := by
    unfold ProcessBuffer
    rw [if_neg (by simp [hconf])]
    rcases hskip with rfl | ⟨f, c, rfl, hclt⟩
    · rfl
    · dsimp only
      rw [if_neg (not_le.mpr hclt)]
  rw [hmain]
  exact ⟨rfl, rfl, rfl, rfl, rfl, rfl, rfl, rfl, rfl, rfl⟩

/-- A concrete analyzer state dwelling in `FrettedString` with a stable pitch
accumulator: open string at 110 Hz, twelfth fret measured at 220 Hz. -/
def frettedDwellState : IntonationAnalyzer :=
  { config := ⟨48000, 2048⟩, configured := true,
    currentState := IntonationState.FrettedString,
    pitchAccumulator := List.replicate 100 (110 : ℝ), pitchCount := 10,
    stateStartTime := 0, openStringFreq := 110, frettedStringFreq := 220,
    centDeviation := 0, isInTune := false, latestResult := some mkIntonationResult }

theorem frettedDwellState_stable : HasStablePitch frettedDwellState = true := by
  have htake : frettedDwellState.pitchAccumulator.take frettedDwellState.pitchCount
      = List.replicate 10 (110 : ℝ) := by
    simp [frettedDwellState, List.take_replicate]
  have hstd : CalculateStandardDeviation frettedDwellState = 0 := by
    unfold CalculateStandardDeviation
    rw [if_neg (by simp [frettedDwellState])]
    rw [htake]
    simp [frettedDwellState, List.sum_replicate, List.map_replicate]
    norm_num
  unfold HasStablePitch
  rw [if_neg (by simp [frettedDwellState]), hstd]
  simp [g_kStabilityThreshold]

theorem frettedDwellState_enters_complete :
    (UpdateStateMachine frettedDwellState 1000).currentState
      = IntonationState.Complete := by
  have hmatch : UpdateStateMachine frettedDwellState 1000 =
      (if HasStablePitch frettedDwellState then
        if (1000 : ℤ) - (frettedDwellState.stateStartTime : ℤ) ≥ g_kStableTimeRequired then
          TransitionToComplete frettedDwellState
        else frettedDwellState
      else frettedDwellState) := rfl
  rw [hmatch, if_pos frettedDwellState_stable,
    if_pos (by simp [frettedDwellState, g_kStableTimeRequired])]
  exact (TransitionToComplete_spec frettedDwellState).1

/-- Witness for C7 at the concrete `frettedDwellState` and instant 1000 ms. -/
theorem intonation_deviation_at_complete_witness :
    (0 < frettedDwellState.frettedStringFreq ∧
        0 < 2 * frettedDwellState.openStringFreq →
      (UpdateStateMachine frettedDwellState 1000).centDeviation
        = 1200 * Real.logb 2 (frettedDwellState.frettedStringFreq
            / (2 * frettedDwellState.openStringFreq)) ∧
      ((UpdateStateMachine frettedDwellState 1000).isInTune = true ↔
        |(UpdateStateMachine frettedDwellState 1000).centDeviation| ≤ 5)) ∧
    ((frettedDwellState.frettedStringFreq ≤ 0 ∨
        2 * frettedDwellState.openStringFreq ≤ 0) →
      (UpdateStateMachine frettedDwellState 1000).centDeviation = 0 ∧
      (UpdateStateMachine frettedDwellState 1000).isInTune = false) :=
  intonation_deviation_at_complete frettedDwellState 1000
    (by simp [frettedDwellState]) frettedDwellState_enters_complete

/-- Witness for C8 at the freshly constructed analyzer. -/
theorem intonation_forward_only_witness :
    ((ProcessBuffer mkIntonationAnalyzer [] none 7).currentState
        = mkIntonationAnalyzer.currentState ∨
      (ProcessBuffer mkIntonationAnalyzer [] none 7).currentState
        = succState mkIntonationAnalyzer.currentState) ∧
    (mkIntonationAnalyzer.currentState = IntonationState.Complete →
      (ProcessBuffer mkIntonationAnalyzer [] none 7).currentState
        = IntonationState.Complete) ∧
    (Reset mkIntonationAnalyzer 7).currentState = IntonationState.Idle :=
  intonation_forward_only mkIntonationAnalyzer [] none 7

/-- Witness for C9: a configured analyzer receiving a pitch at confidence 0.5
keeps its entire state and only republishes. -/
theorem intonation_confidence_gate_witness :
    ProcessBuffer (Configure mkIntonationAnalyzer ⟨48000, 2048⟩) []
        (some (100, 1/2)) 3
      = UpdateResult (Configure mkIntonationAnalyzer ⟨48000, 2048⟩) 3 ∧
    (ProcessBuffer (Configure mkIntonationAnalyzer ⟨48000, 2048⟩) []
        (some (100, 1/2)) 3).currentState
      = (Configure mkIntonationAnalyzer ⟨48000, 2048⟩).currentState ∧
    (ProcessBuffer (Configure mkIntonationAnalyzer ⟨48000, 2048⟩) []
        (some (100, 1/2)) 3).pitchAccumulator
      = (Configure mkIntonationAnalyzer ⟨48000, 2048⟩).pitchAccumulator ∧
    (ProcessBuffer (Configure mkIntonationAnalyzer ⟨48000, 2048⟩) []
        (some (100, 1/2)) 3).pitchCount
      = (Configure mkIntonationAnalyzer ⟨48000, 2048⟩).pitchCount ∧
    (ProcessBuffer (Configure mkIntonationAnalyzer ⟨48000, 2048⟩) []
        (some (100, 1/2)) 3).stateStartTime
      = (Configure mkIntonationAnalyzer ⟨48000, 2048⟩).stateStartTime ∧
    (ProcessBuffer (Configure mkIntonationAnalyzer ⟨48000, 2048⟩) []
        (some (100, 1/2)) 3).openStringFreq
      = (Configure mkIntonationAnalyzer ⟨48000, 2048⟩).openStringFreq ∧
    (ProcessBuffer (Configure mkIntonationAnalyzer ⟨48000, 2048⟩) []
        (some (100, 1/2)) 3).frettedStringFreq
      = (Configure mkIntonationAnalyzer ⟨48000, 2048⟩).frettedStringFreq ∧
    (ProcessBuffer (Configure mkIntonationAnalyzer ⟨48000, 2048⟩) []
        (some (100, 1/2)) 3).centDeviation
      = (Configure mkIntonationAnalyzer ⟨48000, 2048⟩).centDeviation ∧
    (ProcessBuffer (Configure mkIntonationAnalyzer ⟨48000, 2048⟩) []
        (some (100, 1/2)) 3).isInTune
      = (Configure mkIntonationAnalyzer ⟨48000, 2048⟩).isInTune ∧
    (ProcessBuffer (Configure mkIntonationAnalyzer ⟨48000, 2048⟩) []
        (some (100, 1/2)) 3).latestResult = some
      { timestamp := 3, isValid := true,
        state := (Configure mkIntonationAnalyzer ⟨48000, 2048⟩).currentState,
        openStringFrequency := (Configure mkIntonationAnalyzer ⟨48000, 2048⟩).openStringFreq,
        frettedStringFrequency :=
          (Configure mkIntonationAnalyzer ⟨48000, 2048⟩).frettedStringFreq,
        expectedFrettedFrequency :=
          (Configure mkIntonationAnalyzer ⟨48000, 2048⟩).openStringFreq * 2,
        centDeviation := (Configure mkIntonationAnalyzer ⟨48000, 2048⟩).centDeviation,
        isInTune := (Configure mkIntonationAnalyzer ⟨48000, 2048⟩).isInTune } :=
  intonation_confidence_gate (Configure mkIntonationAnalyzer ⟨48000, 2048⟩) []
    (some (100, 1/2)) 3 rfl
    (Or.inr ⟨100, 1/2, rfl, by norm_num [g_kConfidenceThreshold]⟩)

end Intonation

/-- States of the fret-buzz analyzer over its lifetime: construction followed
by any interleaving of `Configure`, `ProcessBuffer` and `Reset` calls. -/
inductive FretBuzzReachable : FretBuzz.FretBuzzDetector → Prop
  | construct : FretBuzzReachable FretBuzz.mkFretBuzzDetector
  | configure (s : FretBuzz.FretBuzzDetector) (cfg : AnalysisConfig) :
      FretBuzzReachable s → FretBuzzReachable (FretBuzz.Configure s cfg)
  | process (s : FretBuzz.FretBuzzDetector) (audioData : List ℝ) (spectrum : ℕ → ℝ)
      (pitch : Option (ℝ × ℝ)) (now : ℕ) :
      FretBuzzReachable s →
      FretBuzzReachable (FretBuzz.ProcessBuffer s audioData spectrum pitch now)
  | reset (s : FretBuzz.FretBuzzDetector) (now : ℕ) :
      FretBuzzReachable s → FretBuzzReachable (FretBuzz.Reset s now)

/-- States of the intonation analyzer over its lifetime. -/
inductive IntonationReachable : Intonation.IntonationAnalyzer → Prop
  | construct : IntonationReachable Intonation.mkIntonationAnalyzer
  | configure (s : Intonation.IntonationAnalyzer) (cfg : AnalysisConfig) :
      IntonationReachable s → IntonationReachable (Intonation.Configure s cfg)
  | process (s : Intonation.IntonationAnalyzer) (audioData : List ℝ)
      (pitch : Option (ℝ × ℝ)) (now : ℕ) :
      IntonationReachable s →
      IntonationReachable (Intonation.ProcessBuffer s audioData pitch now)
  | reset (s : Intonation.IntonationAnalyzer) (now : ℕ) :
      IntonationReachable s → IntonationReachable (Intonation.Reset s now)

/-- States of the string-health analyzer over its lifetime. -/
inductive StringHealthReachable : StringHealth.StringHealthAnalyzer → Prop
  | construct : StringHealthReachable StringHealth.mkStringHealthAnalyzer
  | configure (s : StringHealth.StringHealthAnalyzer) (cfg : AnalysisConfig) :
      StringHealthReachable s → StringHealthReachable (StringHealth.Configure s cfg)
  | process (s : StringHealth.StringHealthAnalyzer) (audioData : List ℝ)
      (spectrum : ℕ → ℝ) (pitch : Option (ℝ × ℝ)) (now : ℕ) :
      StringHealthReachable s →
      StringHealthReachable (StringHealth.ProcessBuffer s audioData spectrum pitch now)
  | reset (s : StringHealth.StringHealthAnalyzer) (now : ℕ) :
      StringHealthReachable s → StringHealthReachable (StringHealth.Reset s now)

/-- C10: Non-null snapshots.  For each of the three analyzers,
`GetLatestResult` holds a result at every point of the object's lifetime:
immediately after construction, after every `ProcessBuffer` call (including
the early-return path before `Configure`), and after every `Reset` — the slot
is initialised at construction and only ever replaced by a fresh result. -/
theorem analyzers_nonnull_snapshots :
    (∀ s, FretBuzzReachable s → (FretBuzz.GetLatestResult s).isSome = true) ∧
    (∀ s, IntonationReachable s → (Intonation.GetLatestResult s).isSome = true) ∧
    (∀ s, StringHealthReachable s → (StringHealth.GetLatestResult s).isSome = true) := by
  refine ⟨?_, ?_, ?_⟩
  · intro s hs
    induction hs with
    | construct => rfl
    | configure s cfg hs ih => exact ih
    | process s audioData spectrum pitch now hs ih =>
        unfold FretBuzz.ProcessBuffer
        split
        · exact ih
        · rfl
    | reset s now hs ih => rfl
  · intro s hs
    induction hs with
    | construct => rfl
    | configure s cfg hs ih => exact ih
    | process s audioData pitch now hs ih =>
        unfold Intonation.ProcessBuffer
        split
        · exact ih
        · rfl
    | reset s now hs ih => rfl
  · intro s hs
    induction hs with
    | construct => rfl
    | configure s cfg hs ih => exact ih
    | process s audioData spectrum pitch now hs ih =>
        unfold StringHealth.ProcessBuffer
        split
        · exact ih
        · rfl
    | reset s now hs ih => rfl

/-- Witness for C10 at the three freshly constructed analyzers. -/
theorem analyzers_nonnull_snapshots_witness :
    (FretBuzz.GetLatestResult FretBuzz.mkFretBuzzDetector).isSome = true ∧
    (Intonation.GetLatestResult Intonation.mkIntonationAnalyzer).isSome = true ∧
    (StringHealth.GetLatestResult StringHealth.mkStringHealthAnalyzer).isSome = true :=
  ⟨analyzers_nonnull_snapshots.1 _ FretBuzzReachable.construct,
   analyzers_nonnull_snapshots.2.1 _ IntonationReachable.construct,
   analyzers_nonnull_snapshots.2.2 _ StringHealthReachable.construct⟩

theorem CalculateSpectralFlux_self (len : ℕ) (spectrum : ℕ → ℝ) :
    FretBuzz.CalculateSpectralFlux ((List.range len).map spectrum) spectrum = 0 := by
  unfold FretBuzz.CalculateSpectralFlux
  apply Finset.sum_eq_zero
  intro i hi
  have hilen : i < len := by
    simp only [Finset.mem_range, List.length_map, List.length_range] at hi
    omega
  have hgetD : ((List.range len).map spectrum).getD i 0 = spectrum i := by
    rw [List.getD_eq_getElem?_getD, List.getElem?_map, List.getElem?_range hilen]
    rfl
  rw [hgetD]
  simp

/-- C5 (code-bug evidence): because `ProcessBuffer` overwrites `prevSpectrum`
with the current frame's spectrum before calling `DetectOnset`, the spectral
flux computed by `DetectOnset` is identically zero, and the published
`onsetDetected` flag depends on the RMS test alone — a frame whose spectrum
differs arbitrarily from the previous frame's can never trigger an onset
through the flux term. -/
theorem fretBuzz_onset_ignores_flux (s : FretBuzz.FretBuzzDetector)
    (audioData : List ℝ) (spectrum : ℕ → ℝ) (pitch : Option (ℝ × ℝ)) (now : ℕ)
    (hconf : s.configured = true) :
    FretBuzz.CalculateSpectralFlux ((List.range s.prevSpectrum.length).map spectrum)
      spectrum = 0 ∧
    ((FretBuzz.ProcessBuffer s audioData spectrum pitch now).currentOnsetDetected
        = true ↔
      (0 < s.prevRMS ∧
        FretBuzz.g_kOnsetThreshold < FretBuzz.CalculateRMSEnergy audioData / s.prevRMS)) := by
  refine ⟨CalculateSpectralFlux_self s.prevSpectrum.length spectrum, ?_⟩
  have honset :
      (FretBuzz.ProcessBuffer s audioData spectrum pitch now).currentOnsetDetected
        = (FretBuzz.DetectOnset
            { s with audioBuffer := audioData,
                     prevSpectrum := (List.range s.prevSpectrum.length).map spectrum }
            audioData spectrum).1 := by
    unfold FretBuzz.ProcessBuffer
    rw [if_neg (by simp [hconf])]
    rfl
  rw [honset]
  unfold FretBuzz.DetectOnset
  dsimp only
  rw [CalculateSpectralFlux_self s.prevSpectrum.length spectrum]
  by_cases hp : s.prevRMS > 0
  · rw [if_pos hp]
    have hzero : decide ((0 : ℝ) > FretBuzz.g_kOnsetThreshold) = false := by
      norm_num [FretBuzz.g_kOnsetThreshold]
    rw [hzero, Bool.or_false]
    rw [decide_eq_true_iff]
    constructor
    · intro h; exact ⟨hp, h⟩
    · intro h; exact h.2
  · rw [if_neg hp]
    constructor
    · intro h; cases h
    · intro h; exact absurd h.1 hp

/-- Witness for C5: a configured detector processing a one-sample frame whose
spectrum is nonzero everywhere (so the flux against any genuinely previous
spectrum would be large) still reports no onset. -/
theorem fretBuzz_onset_ignores_flux_witness :
    FretBuzz.CalculateSpectralFlux
      ((List.range (FretBuzz.Configure FretBuzz.mkFretBuzzDetector
          ⟨48000, 2048⟩).prevSpectrum.length).map (fun _ => (2 : ℝ)))
      (fun _ => (2 : ℝ)) = 0 ∧
    ((FretBuzz.ProcessBuffer (FretBuzz.Configure FretBuzz.mkFretBuzzDetector
          ⟨48000, 2048⟩) [1] (fun _ => (2 : ℝ)) none 0).currentOnsetDetected = true ↔
      (0 < (FretBuzz.Configure FretBuzz.mkFretBuzzDetector ⟨48000, 2048⟩).prevRMS ∧
        FretBuzz.g_kOnsetThreshold < FretBuzz.CalculateRMSEnergy [1]
          / (FretBuzz.Configure FretBuzz.mkFretBuzzDetector ⟨48000, 2048⟩).prevRMS)) :=
  fretBuzz_onset_ignores_flux (FretBuzz.Configure FretBuzz.mkFretBuzzDetector
    ⟨48000, 2048⟩) [1] (fun _ => (2 : ℝ)) none 0 rfl

/-- C6 counterexample: with sampleRate 2048 Hz (bin width 1 Hz) and a
fundamental of 1.5 Hz at harmonic n = 1, both code sites search around bin 1
(truncation), while the nearest integer round(n·f0·FFTSize/sampleRate) is 2. -/
theorem harmonic_bin_round_counterexample :
    FretBuzz.fbExpectedBin ((3 / 2 : ℝ) * 1) ((2048 : ℝ) / (FretBuzz.g_kFFTSize : ℝ))
      = 1 ∧
    StringHealth.shExpectedBin ((3 / 2 : ℝ) * 1)
      ((2048 : ℝ) / (StringHealth.g_kFFTSize : ℝ)) = 1 ∧
    round ((3 / 2 : ℝ) * 1 * 2048 / 2048) = 2 := by
  have hbw : ((2048 : ℝ) / (2048 : ℕ)) = 1 := by norm_num
  have hfloor : ⌊(3 / 2 : ℝ) * 1 / 1⌋ = 1 := by
    rw [Int.floor_eq_iff] <;> norm_num
  refine ⟨?_, ?_, ?_⟩
  · unfold FretBuzz.fbExpectedBin FretBuzz.g_kFFTSize
    rw [hbw, hfloor]
    rfl
  · unfold StringHealth.shExpectedBin StringHealth.g_kFFTSize
    rw [hbw, hfloor]
    rfl
  · rw [round_eq]
    norm_num

/-- C6 amended: in both inharmonicity computations the expected bin searched
around is the truncation of `n·f0·FFTSize/sampleRate` (the floor, since the
quantity is nonnegative), not the nearest integer; the two analyzers use the
same bin and it coincides with `round` exactly when the fractional part of
`n·f0·FFTSize/sampleRate` is below one half. -/
theorem harmonic_bin_truncation (sampleRate f0 : ℝ) (n : ℕ)
    (hSR : 0 < sampleRate) (hf0 : 0 < f0) (hn1 : 1 ≤ n) (hn10 : n ≤ 10) :
    FretBuzz.fbExpectedBin (f0 * (n : ℝ)) (sampleRate / (FretBuzz.g_kFFTSize : ℝ))
      = StringHealth.shExpectedBin (f0 * (n : ℝ))
          (sampleRate / (StringHealth.g_kFFTSize : ℝ)) ∧
    (FretBuzz.fbExpectedBin (f0 * (n : ℝ))
        (sampleRate / (FretBuzz.g_kFFTSize : ℝ)) : ℤ)
      = ⌊f0 * (n : ℝ) * 2048 / sampleRate⌋ ∧
    (Int.fract (f0 * (n : ℝ) * 2048 / sampleRate) < 1 / 2 →
      (FretBuzz.fbExpectedBin (f0 * (n : ℝ))
          (sampleRate / (FretBuzz.g_kFFTSize : ℝ)) : ℤ)
        = round (f0 * (n : ℝ) * 2048 / sampleRate)) := by
  have hx : f0 * (n : ℝ) / (sampleRate / (2048 : ℝ))
      = f0 * (n : ℝ) * 2048 / sampleRate := by
    rw [div_div_eq_mul_div]
  have hpos : 0 < f0 * (n : ℝ) * 2048 / sampleRate := by
    have hn : (1 : ℝ) ≤ (n : ℝ) := by exact_mod_cast hn1
    positivity
  have hfloor0 : 0 ≤ ⌊f0 * (n : ℝ) * 2048 / sampleRate⌋ :=
    Int.floor_nonneg.mpr (le_of_lt hpos)
  have hcast : (FretBuzz.fbExpectedBin (f0 * (n : ℝ))
      (sampleRate / (FretBuzz.g_kFFTSize : ℝ)) : ℤ)
      = ⌊f0 * (n : ℝ) * 2048 / sampleRate⌋ := by
    unfold FretBuzz.fbExpectedBin FretBuzz.g_kFFTSize
    rw [show ((2048 : ℕ) : ℝ) = (2048 : ℝ) by norm_num, hx]
    exact Int.toNat_of_nonneg hfloor0
  refine ⟨rfl, hcast, ?_⟩
  intro hfract
  rw [hcast, round_eq]
  symm
  have hfr : Int.fract (f0 * (n : ℝ) * 2048 / sampleRate)
      = f0 * (n : ℝ) * 2048 / sampleRate - ⌊f0 * (n : ℝ) * 2048 / sampleRate⌋ := rfl
  rw [hfr] at hfract
  have hle : (((⌊f0 * (n : ℝ) * 2048 / sampleRate⌋ : ℤ)) : ℝ)
      ≤ f0 * (n : ℝ) * 2048 / sampleRate := Int.floor_le _
  rw [Int.floor_eq_iff]
  constructor
  · linarith
  · push_cast
    linarith

/-- Witness for the amended C6 at sampleRate 48000 Hz, f0 = 100 Hz, n = 1. -/
theorem harmonic_bin_truncation_witness :
    FretBuzz.fbExpectedBin ((100 : ℝ) * ((1 : ℕ) : ℝ))
        ((48000 : ℝ) / (FretBuzz.g_kFFTSize : ℝ))
      = StringHealth.shExpectedBin ((100 : ℝ) * ((1 : ℕ) : ℝ))
          ((48000 : ℝ) / (StringHealth.g_kFFTSize : ℝ)) ∧
    (FretBuzz.fbExpectedBin ((100 : ℝ) * ((1 : ℕ) : ℝ))
        ((48000 : ℝ) / (FretBuzz.g_kFFTSize : ℝ)) : ℤ)
      = ⌊(100 : ℝ) * ((1 : ℕ) : ℝ) * 2048 / (48000 : ℝ)⌋ ∧
    (Int.fract ((100 : ℝ) * ((1 : ℕ) : ℝ) * 2048 / (48000 : ℝ)) < 1 / 2 →
      (FretBuzz.fbExpectedBin ((100 : ℝ) * ((1 : ℕ) : ℝ))
          ((48000 : ℝ) / (FretBuzz.g_kFFTSize : ℝ)) : ℤ)
        = round ((100 : ℝ) * ((1 : ℕ) : ℝ) * 2048 / (48000 : ℝ))) :=
  harmonic_bin_truncation 48000 100 1 (by norm_num) (by norm_num)
    (by norm_num) (by norm_num)

/-- A frame of pure silence: `n` samples of 0.0. -/
def silentFrame (n : ℕ) : List ℝ := List.replicate n 0

/-- The all-zero magnitude spectrum, which the external spectrum primitive
yields on a silent frame. -/
def zeroSpectrum : ℕ → ℝ := fun _ => 0

/-- Repeated silent frames through the fret-buzz analyzer: at step `j` the
frame of length `n` is processed with the all-zero spectrum, no reported
pitch, and timestamp `j`. -/
def processSilenceFB (s : FretBuzz.FretBuzzDetector) (n : ℕ) :
    ℕ → FretBuzz.FretBuzzDetector
  | 0 => s
  | k + 1 =>
      FretBuzz.ProcessBuffer (processSilenceFB s n k) (silentFrame n) zeroSpectrum none k

/-- Repeated silent frames through the intonation analyzer. -/
def processSilenceIA (s : Intonation.IntonationAnalyzer) (n : ℕ) :
    ℕ → Intonation.IntonationAnalyzer
  | 0 => s
  | k + 1 => Intonation.ProcessBuffer (processSilenceIA s n k) (silentFrame n) none k

/-- Repeated silent frames through the string-health analyzer. -/
def processSilenceSH (s : StringHealth.StringHealthAnalyzer) (n : ℕ) :
    ℕ → StringHealth.StringHealthAnalyzer
  | 0 => s
  | k + 1 =>
      StringHealth.ProcessBuffer (processSilenceSH s n k) (silentFrame n) zeroSpectrum none k

theorem CalculateRMSEnergy_silence (n : ℕ) :
    FretBuzz.CalculateRMSEnergy (silentFrame n) = 0 := by
  unfold FretBuzz.CalculateRMSEnergy silentFrame
  rw [List.map_replicate]
  simp

theorem foldl_max_abs_silence (n : ℕ) :
    (List.replicate n (0 : ℝ)).foldl (fun m x => max m |x|) 0 = 0 := by
  induction n with
  | zero => rfl
  | succ n ih => simpa [List.replicate_succ] using ih

theorem CalculateAttackTime_silence (cfg : AnalysisConfig) (n : ℕ) :
    FretBuzz.CalculateAttackTime cfg (silentFrame n) = 1 := by
  unfold FretBuzz.CalculateAttackTime silentFrame
  rw [if_pos]
  rw [foldl_max_abs_silence]
  norm_num

theorem CalculateZeroCrossingRate_silence (cfg : AnalysisConfig) (n : ℕ) :
    FretBuzz.CalculateZeroCrossingRate cfg (silentFrame n) = 0 := by
  unfold FretBuzz.CalculateZeroCrossingRate silentFrame
  split
  · rfl
  · rw [List.tail_replicate, List.zip_replicate]
    have hcount :
        (List.replicate (min n (n - 1)) ((0 : ℝ), (0 : ℝ))).countP
          (fun p => decide ((p.1 ≥ 0 ∧ p.2 < 0) ∨ (p.1 < 0 ∧ p.2 ≥ 0))) = 0 := by
      induction min n (n - 1) with
      | zero => rfl
      | succ m ih =>
          rw [List.replicate_succ, List.countP_cons]
          simp only [ih]
          norm_num
    rw [hcount]
    simp

theorem AnalyzeTransient_silence (cfg : AnalysisConfig) (n : ℕ) :
    FretBuzz.AnalyzeTransient cfg (silentFrame n) = 0 := by
  unfold FretBuzz.AnalyzeTransient
  rw [CalculateAttackTime_silence, CalculateZeroCrossingRate_silence]
  unfold clampf
  norm_num

theorem ExtractBandEnergy_zeroSpectrum (sampleRate : ℝ) (fftSize : ℕ)
    (lowFreq highFreq : ℝ) :
    GuitarDSP.ExtractBandEnergy zeroSpectrum sampleRate fftSize lowFreq highFreq = 0 := by
  unfold GuitarDSP.ExtractBandEnergy zeroSpectrum
  simp

theorem AnalyzeHighFrequencyNoise_zeroSpectrum (cfg : AnalysisConfig) :
    FretBuzz.AnalyzeHighFrequencyNoise cfg zeroSpectrum = 0 := by
  unfold FretBuzz.AnalyzeHighFrequencyNoise
  rw [ExtractBandEnergy_zeroSpectrum, ExtractBandEnergy_zeroSpectrum]
  rw [if_pos (by norm_num)]

theorem AnalyzeInharmonicity_nopitch (t : FretBuzz.FretBuzzDetector)
    (spectrum : ℕ → ℝ) :
    FretBuzz.AnalyzeInharmonicity t spectrum none = 0 := by
  unfold FretBuzz.AnalyzeInharmonicity
  split <;> rfl

theorem DetectOnset_silence (t : FretBuzz.FretBuzzDetector) (m n : ℕ)
    (hprev : t.prevSpectrum = (List.range m).map zeroSpectrum) :
    (FretBuzz.DetectOnset t (silentFrame n) zeroSpectrum).1 = false := by
  unfold FretBuzz.DetectOnset
  dsimp only
  rw [hprev, CalculateSpectralFlux_self, CalculateRMSEnergy_silence]
  split
  · rw [zero_div]
    have h1 : decide ((0 : ℝ) > FretBuzz.g_kOnsetThreshold) = false := by
      norm_num [FretBuzz.g_kOnsetThreshold]
    rw [h1, Bool.or_self]
  · rfl

theorem CalculateSpectralCentroid_zeroSpectrum (sampleRate : ℝ) (fftSize : ℕ) :
    GuitarDSP.CalculateSpectralCentroid zeroSpectrum sampleRate fftSize = 0 := by
  unfold GuitarDSP.CalculateSpectralCentroid zeroSpectrum
  norm_num

theorem fretBuzz_silentStep (s : FretBuzz.FretBuzzDetector) (n now : ℕ)
    (hconf : s.configured = true) :
    (FretBuzz.ProcessBuffer s (silentFrame n) zeroSpectrum none now).configured = true ∧
    (FretBuzz.ProcessBuffer s (silentFrame n) zeroSpectrum none now).latestResult = some
      { timestamp := now, isValid := true, buzzScore := 0, onsetDetected := false,
        transientScore := 0, highFreqEnergyScore := 0, inharmonicityScore := 0 } := by
  unfold FretBuzz.ProcessBuffer
  rw [if_neg (by simp [hconf])]
  refine ⟨hconf, ?_⟩
  dsimp only
  rw [DetectOnset_silence _ s.prevSpectrum.length n rfl,
    AnalyzeTransient_silence, AnalyzeHighFrequencyNoise_zeroSpectrum,
    AnalyzeInharmonicity_nopitch]
  unfold FretBuzz.UpdateResult
  dsimp only
  norm_num

theorem processSilenceFB_configured (s : FretBuzz.FretBuzzDetector) (n : ℕ)
    (hconf : s.configured = true) :
    ∀ k, (processSilenceFB s n k).configured = true := by
  intro k
  induction k with
  | zero => exact hconf
  | succ k ih =>
      rw [processSilenceFB]
      exact (fretBuzz_silentStep (processSilenceFB s n k) n k ih).1

theorem Intonation_ProcessBuffer_nopitch (s : Intonation.IntonationAnalyzer)
    (audioData : List ℝ) (now : ℕ) (hconf : s.configured = true) :
    Intonation.ProcessBuffer s audioData none now = Intonation.UpdateResult s now := by
  unfold Intonation.ProcessBuffer
  rw [if_neg (by simp [hconf])]

theorem processSilenceIA_fields (cfg : AnalysisConfig) (n : ℕ) :
    ∀ k,
      (processSilenceIA (Intonation.Configure Intonation.mkIntonationAnalyzer cfg) n
        k).configured = true ∧
      (processSilenceIA (Intonation.Configure Intonation.mkIntonationAnalyzer cfg) n
        k).currentState = Intonation.IntonationState.Idle ∧
      (processSilenceIA (Intonation.Configure Intonation.mkIntonationAnalyzer cfg) n
        k).openStringFreq = 0 ∧
      (processSilenceIA (Intonation.Configure Intonation.mkIntonationAnalyzer cfg) n
        k).frettedStringFreq = 0 ∧
      (processSilenceIA (Intonation.Configure Intonation.mkIntonationAnalyzer cfg) n
        k).centDeviation = 0 ∧
      (processSilenceIA (Intonation.Configure Intonation.mkIntonationAnalyzer cfg) n
        k).isInTune = false := by
  intro k
  induction k with
  | zero => exact ⟨rfl, rfl, rfl, rfl, rfl, rfl⟩
  | succ k ih =>
      obtain ⟨h1, h2, h3, h4, h5, h6⟩ := ih
      rw [processSilenceIA, Intonation_ProcessBuffer_nopitch _ _ _ h1]
      exact ⟨h1, h2, h3, h4, h5, h6⟩

theorem stringHealth_silentStep (s : StringHealth.StringHealthAnalyzer) (n now : ℕ)
    (hconf : s.configured = true) (hfund : s.currentFundamental = 0)
    (hhist : s.harmonicEnergies = []) :
    (StringHealth.ProcessBuffer s (silentFrame n) zeroSpectrum none now).configured
      = true ∧
    (StringHealth.ProcessBuffer s (silentFrame n) zeroSpectrum none
      now).currentFundamental = 0 ∧
    (StringHealth.ProcessBuffer s (silentFrame n) zeroSpectrum none
      now).harmonicEnergies = [] ∧
    (StringHealth.ProcessBuffer s (silentFrame n) zeroSpectrum none now).latestResult
      = some { timestamp := now, isValid := true, healthScore := 1, decayRate := 0,
               spectralCentroid := 0, inharmonicity := 0, fundamentalFrequency := 0 } := by
  unfold StringHealth.ProcessBuffer
  rw [if_neg (by simp [hconf])]
  dsimp only
  have hdecay : StringHealth.AnalyzeDecay s = 0 := by
    unfold StringHealth.AnalyzeDecay
    rw [if_pos (by rw [hhist]; norm_num)]
  have hinh : StringHealth.CalculateInharmonicity s.config zeroSpectrum
      s.currentFundamental = 0 := by
    unfold StringHealth.CalculateInharmonicity
    rw [if_pos (by rw [hfund])]
  rw [hdecay, hinh, CalculateSpectralCentroid_zeroSpectrum]
  refine ⟨hconf, hfund, hhist, ?_⟩
  have hhealth : StringHealth.CalculateHealthScore
      { s with currentDecayRate := 0, currentSpectralCentroid := 0,
               currentInharmonicity := 0 } = 1 := by
    unfold StringHealth.CalculateHealthScore StringHealth.NormalizeDecayRate
      StringHealth.NormalizeSpectralFeatures StringHealth.g_kMinDecayRate
      StringHealth.g_kMaxDecayRate clampf
    norm_num
  rw [hhealth]
  unfold StringHealth.UpdateResult
  dsimp only
  rw [hfund]

theorem processSilenceSH_invariant (cfg : AnalysisConfig) (n : ℕ) :
    ∀ k,
      (processSilenceSH (StringHealth.Configure StringHealth.mkStringHealthAnalyzer cfg)
        n k).configured = true ∧
      (processSilenceSH (StringHealth.Configure StringHealth.mkStringHealthAnalyzer cfg)
        n k).currentFundamental = 0 ∧
      (processSilenceSH (StringHealth.Configure StringHealth.mkStringHealthAnalyzer cfg)
        n k).harmonicEnergies = [] := by
  intro k
  induction k with
  | zero => exact ⟨rfl, rfl, rfl⟩
  | succ k ih =>
      obtain ⟨h1, h2, h3⟩ := ih
      rw [processSilenceSH]
      have h := stringHealth_silentStep _ n k h1 h2 h3
      exact ⟨h.1, h.2.1, h.2.2.1⟩

/-- C4 counterexample: one silent frame after `Configure` already makes the
string-health analyzer publish `healthScore = 1`, not 0 — the claim that all
numeric fields are 0 under silence fails on the health score. -/
theorem silence_healthScore_not_zero :
    ((processSilenceSH (StringHealth.Configure StringHealth.mkStringHealthAnalyzer
          ⟨48000, 2048⟩) 2048 1).latestResult.map
        StringHealth.StringHealthResult.healthScore) = some 1 ∧
    ((processSilenceSH (StringHealth.Configure StringHealth.mkStringHealthAnalyzer
          ⟨48000, 2048⟩) 2048 1).latestResult.map
        StringHealth.StringHealthResult.healthScore) ≠ some 0 := by
  have h := stringHealth_silentStep
    (StringHealth.Configure StringHealth.mkStringHealthAnalyzer ⟨48000, 2048⟩) 2048 0
    rfl rfl rfl
  have hres := h.2.2.2
  have hone : ((processSilenceSH (StringHealth.Configure
      StringHealth.mkStringHealthAnalyzer ⟨48000, 2048⟩) 2048 1).latestResult.map
      StringHealth.StringHealthResult.healthScore) = some 1 := by
    rw [show processSilenceSH (StringHealth.Configure
        StringHealth.mkStringHealthAnalyzer ⟨48000, 2048⟩) 2048 1
        = StringHealth.ProcessBuffer (StringHealth.Configure
            StringHealth.mkStringHealthAnalyzer ⟨48000, 2048⟩)
          (silentFrame 2048) zeroSpectrum none 0 from rfl, hres]
    rfl
  refine ⟨hone, ?_⟩
  rw [hone]
  simp only [ne_eq, Option.some.injEq]
  norm_num

/-- C4 amended: if every frame processed after `Configure` is pure silence
(all samples 0.0, so the spectrum primitive yields all-zero magnitudes and the
pitch detector reports no pitch), the fret-buzz and intonation analyzers
publish results whose numeric fields are all 0 with `isValid = true` — but the
string-health analyzer, while publishing `decayRate`, `spectralCentroid`,
`inharmonicity` and `fundamentalFrequency` equal to 0 with `isValid = true`,
publishes `healthScore = 1`, because a zero decay rate normalises to 1 and a
zero centroid gives the maximal spectral sub-score. -/
theorem silence_behaviour (cfg : AnalysisConfig) (n k : ℕ) (hk : 0 < k) :
    (processSilenceFB (FretBuzz.Configure FretBuzz.mkFretBuzzDetector cfg) n
        k).latestResult
      = some { timestamp := k - 1, isValid := true, buzzScore := 0,
               onsetDetected := false, transientScore := 0, highFreqEnergyScore := 0,
               inharmonicityScore := 0 } ∧
    (processSilenceIA (Intonation.Configure Intonation.mkIntonationAnalyzer cfg) n
        k).latestResult
      = some { timestamp := k - 1, isValid := true,
               state := Intonation.IntonationState.Idle, openStringFrequency := 0,
               frettedStringFrequency := 0, expectedFrettedFrequency := 0,
               centDeviation := 0, isInTune := false } ∧
    (processSilenceSH (StringHealth.Configure StringHealth.mkStringHealthAnalyzer cfg)
        n k).latestResult
      = some { timestamp := k - 1, isValid := true, healthScore := 1, decayRate := 0,
               spectralCentroid := 0, inharmonicity := 0,
               fundamentalFrequency := 0 } := by
  obtain ⟨j, rfl⟩ : ∃ j, k = j + 1 := ⟨k - 1, by omega⟩
  refine ⟨?_, ?_, ?_⟩
  · rw [processSilenceFB]
    have h := fretBuzz_silentStep
      (processSilenceFB (FretBuzz.Configure FretBuzz.mkFretBuzzDetector cfg) n j) n j
      (processSilenceFB_configured _ n rfl j)
    simpa using h.2
  · obtain ⟨h1, h2, h3, h4, h5, h6⟩ := processSilenceIA_fields cfg n j
    rw [processSilenceIA, Intonation_ProcessBuffer_nopitch _ _ _ h1]
    unfold Intonation.UpdateResult
    dsimp only
    rw [h2, h3, h4, h5, h6]
    norm_num
  · obtain ⟨h1, h2, h3⟩ := processSilenceSH_invariant cfg n j
    rw [processSilenceSH]
    have h := stringHealth_silentStep _ n j h1 h2 h3
    simpa using h.2.2.2

/-- Witness for the amended C4 at sampleRate 48000 Hz, frame length 2048, one
frame of silence. -/
theorem silence_behaviour_witness :
    (processSilenceFB (FretBuzz.Configure FretBuzz.mkFretBuzzDetector ⟨48000, 2048⟩)
        2048 1).latestResult
      = some { timestamp := 0, isValid := true, buzzScore := 0,
               onsetDetected := false, transientScore := 0, highFreqEnergyScore := 0,
               inharmonicityScore := 0 } ∧
    (processSilenceIA (Intonation.Configure Intonation.mkIntonationAnalyzer
        ⟨48000, 2048⟩) 2048 1).latestResult
      = some { timestamp := 0, isValid := true,
               state := Intonation.IntonationState.Idle, openStringFrequency := 0,
               frettedStringFrequency := 0, expectedFrettedFrequency := 0,
               centDeviation := 0, isInTune := false } ∧
    (processSilenceSH (StringHealth.Configure StringHealth.mkStringHealthAnalyzer
        ⟨48000, 2048⟩) 2048 1).latestResult
      = some { timestamp := 0, isValid := true, healthScore := 1, decayRate := 0,
               spectralCentroid := 0, inharmonicity := 0, fundamentalFrequency := 0 } :=
  silence_behaviour ⟨48000, 2048⟩ 2048 1 (by norm_num)

end Analysis

end

end GuitarDiagnostics
